import Mathlib

/-!
Verification of the semantic lowering pass of a SQL → PostgREST translator.

The TypeScript sources under `src/processor` are shallowly embedded below:

* machine values flowing through the lowerer (`string | number` in JS) become
  the inductive `Value`, with JS numbers modelled as rationals (`ℚ`);
* optional object fields (`x?: T`) become `Option` (the source field name
  `alias` is a Lean keyword and is embedded as `alias_`);
* thrown `UnsupportedError`s become `Except String` results carrying the
  error message (remediation hints are dropped);
* JS truthiness tests (`if (!x)`) are translated by dedicated `falsy`
  helpers: for strings both `undefined` and the empty string are falsy, for
  numbers `undefined` and `0` are falsy, for objects only `undefined` is.

All definitions are executable, so concrete queries can be evaluated inside
the logic.  Apostrophes inside error-message string literals are written
with the `\x27` escape; the strings are byte-for-byte the messages thrown
by the source.
-/

namespace SqlToRest

/-! ## Basic values -/

abbrev Err := String

/-- A JS value produced by the lowerer (`string | number | null | array`). -/
inductive Value where
  | str (s : String)
  | num (q : ℚ)
  | null
  | vlist (vs : List Value)

/-- JS truthiness on `Value`: `""`, `0` and `null` are falsy,
every other string/number and every array is truthy. -/
def Value.falsy : Value → Bool
  | .str s => s = ""
  | .num q => q = 0
  | .null => true
  | .vlist _ => false

/-- `typeof v === 'number'`. -/
def Value.isNum : Value → Bool
  | .num _ => true
  | _ => false

/-- Template-literal stringification of a value.  Only reached on integral
numbers and strings in the embedded code (floats are rejected before any
stringification happens). -/
def Value.jsTemplate : Value → String
  | .str s => s
  | .num q => if q.den = 1 then toString q.num else toString q
  | .null => "null"
  | .vlist _ => ""

/-- JS truthiness of an optional string: `undefined` and `""` are falsy. -/
def optFalsy (s : Option String) : Bool :=
  s.isNone || s == some ""

/-- `String.prototype.toLowerCase` (over the character list, so that it
reduces definitionally on literals). -/
def jsToLower (s : String) : String :=
  String.mk (s.data.map Char.toLower)

/-- `pat` is a prefix of the second list. -/
def listIsPrefixOf : List Char → List Char → Bool
  | [], _ => true
  | _ :: _, [] => false
  | p :: ps, c :: cs => p == c && listIsPrefixOf ps cs

/-- `pat` occurs as a contiguous sublist. -/
def listContainsSub (pat : List Char) : List Char → Bool
  | [] => listIsPrefixOf pat []
  | c :: cs => listIsPrefixOf pat (c :: cs) || listContainsSub pat cs

/-- `String.prototype.includes`: substring containment, as used via
`operator.includes('symmetric')` in the source. -/
def jsIncludes (s pat : String) : Bool :=
  listContainsSub pat.data s.data

/-- Split a character list on a separator character. -/
def splitOnChar (sep : Char) : List Char → List (List Char)
  | [] => [[]]
  | c :: rest =>
    let r := splitOnChar sep rest
    if c == sep then [] :: r
    else
      match r with
      | [] => [[c]]
      | g :: gs => (c :: g) :: gs

/-- `s.split('.')` (JS `String.prototype.split` with a one-character
separator; `''.split('.')` is `['']`). -/
def jsSplitDot (s : String) : List String :=
  (splitOnChar '.' s.data).map String.mk

/-! ## The request model (processor/types.ts) -/

/-- The equi-join column of an `EmbeddedTarget` (`JoinedColumn`). -/
structure JoinedColumn where
  relation : String
  column : String
deriving DecidableEq

/-- `Target`: column targets, aggregate targets and embedded (joined)
targets.  An aggregate's `column` is an `Option`: `none` models the
bare-count special case whose JS object carries no `column` key at all.
The `embedded` constructor carries the fields of an `EmbeddedTarget`
inline (relation, alias, joinType, targets, flatten, joinedColumns). -/
inductive Target where
  | column (column : String) (alias_ : Option String) (cast : Option String)
  | aggregate (functionName : String) (column : Option String) (alias_ : Option String)
      (inputCast : Option String) (outputCast : Option String)
  | embedded (relation : String) (alias_ : Option String) (joinType : String)
      (targets : List Target) (flatten : Bool) (left : JoinedColumn) (right : JoinedColumn)

/-- `EmbeddedTarget` as stored in the relations environment
(`relations.joined`); the same data as the `Target.embedded` constructor. -/
structure Embedded where
  relation : String
  alias_ : Option String
  joinType : String
  targets : List Target
  flatten : Bool
  left : JoinedColumn
  right : JoinedColumn

/-- View an environment entry as a target (the source uses the same object
for both roles). -/
def Embedded.toTarget (e : Embedded) : Target :=
  .embedded e.relation e.alias_ e.joinType e.targets e.flatten e.left e.right

instance : Inhabited Embedded :=
  ⟨{ relation := "", alias_ := none, joinType := "", targets := [], flatten := false,
     left := ⟨"", ""⟩, right := ⟨"", ""⟩ }⟩

/-- The primary relation of the lowering environment. -/
structure Primary where
  name : String
  alias_ : Option String
deriving DecidableEq

/-- The `reference` getter: `this.alias ?? this.name` (nullish coalescing,
so an empty-string alias is kept). -/
def Primary.reference (p : Primary) : String :=
  p.alias_.getD p.name

/-- The relations environment built from the `FROM` clause (`Relations`). -/
structure Relations where
  primary : Primary
  joined : List Embedded

/-- `Filter`: the operator is kept as a raw string (rather than an
enumeration without `not`) so that the no-`not` invariant is a genuine
theorem about the lowering code, not an artifact of the embedding's types. -/
inductive Filter where
  | column (column : String) (operator : String) (negate : Bool) (value : Value)
      (config : Option String)
  | logical (operator : String) (negate : Bool) (values : List Filter)

/-- `filter.negate = b` (field assignment on either filter variant). -/
def Filter.setNegate : Filter → Bool → Filter
  | .column c o _ v cfg, b => .column c o b v cfg
  | .logical o _ vs, b => .logical o b vs

/-- The `negate` field of a filter. -/
def Filter.negate : Filter → Bool
  | .column _ _ n _ _ => n
  | .logical _ n _ => n

/-- `Limit`: optional `count`, optional `offset`.  A `none` field models a
JS `undefined` field. -/
structure Limit where
  count : Option Int
  offset : Option Int
deriving DecidableEq

/-! ## The parser's syntax tree (the relevant node kinds) -/

/-- The single tagged variant inside an `A_Const` node.  The constructor
tag models which key (`sval` / `ival` / `fval`) is present on the JS
object, and the `Option` payload models the *inner* value, which the
protobuf JSON serialisation omits for default values (`0`, `""`).
A float literal is abstracted by its numeric value (`parseFloat`). -/
inductive AConstV where
  | sval (s : Option String)
  | ival (i : Option Int)
  | fval (f : Option ℚ)
  | isnull
deriving DecidableEq

/-- The parse-tree nodes consumed by the lowering pass.  Each constructor
corresponds to one JS tag (`'A_Expr' in node`, …); `other` stands for any
node kind the lowerer does not recognise (its JS key is kept for error
messages built from `Object.keys(node)`). -/
inductive Node where
  | aExpr (kind : Option String) (name : Option (List Node)) (lexpr : Option Node)
      (rexpr : Option Node)
  | aConst (v : AConstV)
  | columnRef (fields : Option (List Node))
  | pgString (sval : Option String)
  | aStar
  | boolExpr (boolop : Option String) (args : Option (List Node))
  | nullTest (arg : Option Node) (nulltesttype : Option String)
  | funcCall (funcname : Option (List Node)) (args : Option (List Node)) (aggStar : Bool)
  | typeCast (arg : Option Node) (typeNames : Option (List Node))
  | nlist (items : Option (List Node))
  | rangeVar (relname : Option String) (alias_ : Option String)
  | joinExpr (jointype : Option String) (larg : Option Node) (rarg : Option Node)
      (quals : Option Node)
  | other (tag : String)

/-- The JS key of a node (`Object.keys(node)[0]`), used in error messages. -/
def Node.tag : Node → String
  | .aExpr _ _ _ _ => "A_Expr"
  | .aConst _ => "A_Const"
  | .columnRef _ => "ColumnRef"
  | .pgString _ => "String"
  | .aStar => "A_Star"
  | .boolExpr _ _ => "BoolExpr"
  | .nullTest _ _ => "NullTest"
  | .funcCall _ _ _ => "FuncCall"
  | .typeCast _ _ => "TypeCast"
  | .nlist _ => "List"
  | .rangeVar _ _ => "RangeVar"
  | .joinExpr _ _ _ _ => "JoinExpr"
  | .other t => t

/-- `ResTarget` (one item of the select target list). -/
structure ResTarget where
  name : Option String
  val : Option Node

/-- `ColumnRef` as handed to the GROUP BY validator. -/
structure ColumnRef where
  fields : Option (List Node)

/-- The fields of `SelectStmt` read by `processLimit`. -/
structure SelectStmt where
  limitCount : Option Node
  limitOffset : Option Node

/-! ## Monadic list helpers

JS `Array.prototype.map` with a throwing callback is an eager, leftmost-
error map; `mapEx` is that operation over `Except`. -/

def mapEx (f : α → Except Err β) : List α → Except Err (List β)
  | [] => .ok []
  | x :: xs => do
    let y ← f x
    let ys ← mapEx f xs
    .ok (y :: ys)

/-- `mapEx` with a membership proof handed to the callback (used for the
recursive call in `processWhereClause`, to justify termination). -/
def mapExMem : (l : List α) → ((a : α) → a ∈ l → Except Err β) → Except Err (List β)
  | [], _ => .ok []
  | x :: xs, f => do
    let y ← f x (List.mem_cons_self x xs)
    let ys ← mapExMem xs (fun a h => f a (List.mem_cons_of_mem x h))
    .ok (y :: ys)

/-- Replace the element at index `i` (JS in-place update of an array slot). -/
def updateAt (l : List α) (i : Nat) (f : α → α) : List α :=
  match l, i with
  | [], _ => []
  | x :: xs, 0 => f x :: xs
  | x :: xs, n + 1 => x :: updateAt xs n f

/-! ## processor/util.ts -/

/-- `parseConstant`. -/
def parseConstant (constant : AConstV) : Except Err Value :=
  match constant with
  | .sval s =>
    -- if (constant.sval?.sval === undefined) throw ...
    match s with
    | some v => .ok (.str v)
    | none => .error "Constant value cannot be empty"
  | .ival i =>
    -- `constant.ival` is the (always present) Integer object, so the
    -- `=== undefined` guard on it never fires; the inner value defaults
    -- to 0: `constant.ival.ival ?? 0`
    .ok (.num ((i.getD 0 : Int) : ℚ))
  | .fval f =>
    -- parseFloat(constant.fval.fval): the literal is abstracted by its value
    match f with
    | some q => .ok (.num q)
    | none => .error "Constant value cannot be undefined"
  | .isnull => .error "Constant values must be a string, integer, or float"

/-- `nameSegments.slice(-2, -1)[0]`: the second-to-last element, when the
list has at least two elements.  Elements are themselves JS
`string | undefined`, hence the join. -/
def sliceSecondLast (l : List (Option String)) : Option String :=
  if l.length ≥ 2 then (l.get? (l.length - 2)).join else none

/-- `nameSegments.slice(-1)[0]`: the last element. -/
def sliceLast (l : List (Option String)) : Option String :=
  l.getLast?.join

/-- `[a, b].join('.')` on possibly-undefined parts (JS renders `undefined`
as the empty string inside `Array.prototype.join`). -/
def jsJoinDot (a b : Option String) : String :=
  a.getD "" ++ "." ++ b.getD ""

/-- The `syntax` parameter of `renderFields` (`'dot' | 'parenthesis'`). -/
inductive FieldStyle where
  | dot
  | paren
deriving DecidableEq

/-- `t.alias ?? t.relation` (nullish coalescing). -/
def embReference (t : Embedded) : String :=
  t.alias_.getD t.relation

/-- `renderFields(fields, relations, syntax)`. -/
def renderFields (fields : List Node) (relations : Relations)
    (style : FieldStyle := .dot) : Except Err String := do
  let nameSegments ← mapEx (fun field =>
    match field with
    | .pgString sval => .ok sval
    | .aStar => .ok (some "*")
    | f => .error s!"Unsupported internal type \x27{f.tag}\x27 for data type names") fields
  let relationOrAliasName := sliceSecondLast nameSegments
  let columnName := sliceLast nameSegments
  let joinedRelation := relations.joined.find? (fun t =>
    relationOrAliasName == some (embReference t))
  if optFalsy relationOrAliasName || relationOrAliasName == some relations.primary.reference then
    match columnName with
    | some c => if c = "" then .error "Column name cannot be empty" else .ok c
    | none => .error "Column name cannot be empty"
  else
    match joinedRelation with
    | some jr =>
      let joinedRelationName := if jr.flatten then jr.relation else relationOrAliasName.getD ""
      match style with
      | .dot => .ok (joinedRelationName ++ "." ++ columnName.getD "")
      | .paren =>
        -- template literal: `${columnName}` renders undefined as "undefined"
        .ok (joinedRelationName ++ "(" ++ columnName.getD "undefined" ++ ")")
    | none =>
      .error s!"Found foreign column \x27{jsJoinDot relationOrAliasName columnName}\x27 without a join to that relation"

/-- `renderDataType(names)`; the input is the list of `String` nodes'
`sval` fields, the result is `string | undefined` (`Option String`). -/
def renderDataType (names : List (Option String)) : Except Err (Option String) :=
  match names with
  | [] => .error "Data type must have a name"
  | first :: rest =>
    if first == some "pg_catalog" ∧ rest.length = 1 then
      match rest with
      | name :: _ =>
        -- `if (!name)` never fires: `name` is the String node object
        match name with
        | some "int2" => .ok (some "smallint")
        | some "int4" => .ok (some "int")
        | some "int8" => .ok (some "bigint")
        | some "float8" => .ok (some "float")
        | _ => .ok name
      | [] => .error "Data type must have a name"
    else if rest.length > 0 then
      .error "Casts can only reference data types by their unqualified name (not schema-qualified)"
    else
      .ok first

/-- The result record of `processJsonTarget` (a `ColumnTarget` before the
alias is attached). -/
structure CTgt where
  column : String
  cast : Option String
deriving DecidableEq

/-- `processJsonTarget(expression, relations)`: lowers `->`/`->>` chains.
Recursion follows the source's `processJsonTarget(expression.A_Expr.lexpr…)`. -/
def processJsonTarget (expression : Node) (relations : Relations) : Except Err CTgt :=
  match expression with
  | .aExpr _kind name lexpr rexpr => do
    match name with
    | none => .error "JSON operator must have a name"
    | some nameList => do
      if nameList.length = 0 then
        .error "JSON operator must have a name"
      else if nameList.length > 1 then
        .error "Only one operator name supported per expression"
      else do
        let operator ← match nameList.head? with
          | some (.pgString sv) =>
            match sv with
            | some op =>
              if op = "" then Except.error "JSON operator name cannot be empty" else Except.ok op
            | none => Except.error "JSON operator name cannot be empty"
          | some _ => Except.error "JSON operator name must be a string"
          | none => Except.error "JSON operator name must be a string"
        if ¬ (operator = "->" ∨ operator = "->>") then
          .error "Invalid JSON operator"
        else do
          let left : Value ← match lexpr with
            | none => Except.error "JSON path must have a left expression"
            | some le =>
              match le with
              | .aConst c =>
                (match c with
                 | .fval _ => Except.error "Invalid JSON path"
                 | c' => parseConstant c')
              | .aExpr _ _ _ _ => do
                let t ← processJsonTarget le relations
                Except.ok (.str t.column)
              | .columnRef fs =>
                (match fs with
                 | none => Except.error "JSON path must have a column reference"
                 | some fields => do
                   let c ← renderFields fields relations
                   Except.ok (.str c))
              | _ => Except.error "Invalid JSON path"
          let rightAndCast ← match rexpr with
            | none => Except.error "JSON path must have a right expression"
            | some (.aConst c) =>
              match c with
              | .fval _ => Except.error "Invalid JSON path"
              | c' => do
                let r ← parseConstant c'
                Except.ok ((r, (none : Option String)))
            | some (.typeCast arg typeNames) => do
              match typeNames with
              | none => Except.error "Type cast must have a name"
              | some tns => do
                let names ← mapEx (fun n =>
                  match n with
                  | .pgString sv => Except.ok sv
                  | _ => Except.error "Type cast name must be a string") tns
                let cast ← renderDataType names
                match arg with
                | none => Except.error "Type cast must have an argument"
                | some (.aConst c) =>
                  match c with
                  | .sval sv =>
                    match sv with
                    | some s =>
                      if s = "" then Except.error "Type cast argument cannot be empty"
                      else Except.ok ((Value.str s, cast))
                    | none => Except.error "Type cast argument cannot be empty"
                  | _ => Except.error "Invalid JSON path"
                | some _ => Except.error "Invalid JSON path"
            | some _ => Except.error "Invalid JSON path"
          .ok { column := left.jsTemplate ++ operator ++ rightAndCast.1.jsTemplate,
                cast := rightAndCast.2 }
  | _ => .error "Invalid JSON path"

end SqlToRest
namespace SqlToRest

/-! ## processor/filter.ts -/

/-- `mapOperatorSymbol(kind, operatorSymbol)`.  The TS switch has no
default case over the expression kind, so unlisted kinds fall through and
the function returns `undefined` (`none` here); the caller's trailing
`else` branch then reports the unsupported operator. -/
def mapOperatorSymbol (kind : String) (operatorSymbol : String) : Except Err (Option String) :=
  match kind with
  | "AEXPR_OP" =>
    match operatorSymbol with
    | "=" => .ok (some "eq")
    | "<>" => .ok (some "neq")
    | ">" => .ok (some "gt")
    | ">=" => .ok (some "gte")
    | "<" => .ok (some "lt")
    | "<=" => .ok (some "lte")
    | "~" => .ok (some "match")
    | "~*" => .ok (some "imatch")
    | "@@" => .ok (some "fts")
    | _ => .error s!"Unsupported operator \x27{operatorSymbol}\x27"
  | "AEXPR_BETWEEN" | "AEXPR_BETWEEN_SYM" | "AEXPR_NOT_BETWEEN" | "AEXPR_NOT_BETWEEN_SYM" =>
    match operatorSymbol with
    | "between" => .ok (some "between")
    | "between symmetric" => .ok (some "between symmetric")
    | "not between" => .ok (some "not between")
    | "not between symmetric" => .ok (some "not between symmetric")
    | _ => .error s!"Unsupported operator \x27{operatorSymbol}\x27"
  | "AEXPR_LIKE" =>
    match operatorSymbol with
    | "~~" => .ok (some "like")
    | _ => .error s!"Unsupported operator \x27{operatorSymbol}\x27"
  | "AEXPR_ILIKE" =>
    match operatorSymbol with
    | "~~*" => .ok (some "ilike")
    | _ => .error s!"Unsupported operator \x27{operatorSymbol}\x27"
  | "AEXPR_IN" =>
    match operatorSymbol with
    | "=" => .ok (some "in")
    | _ => .error s!"Unsupported operator \x27{operatorSymbol}\x27"
  | _ => .ok none

/-- `mapTextSearchFunction(functionName)`. -/
def mapTextSearchFunction (functionName : String) : Except Err String :=
  match functionName with
  | "to_tsquery" => .ok "fts"
  | "plainto_tsquery" => .ok "plfts"
  | "phraseto_tsquery" => .ok "phfts"
  | "websearch_to_tsquery" => .ok "wfts"
  | _ => .error s!"Function \x27{functionName}\x27 not supported for full-text search"

/-- Resolution of the left side of a WHERE `A_Expr` to a column name
(filter.ts lines 37–108). -/
def whereLeftColumn (operator : Option String) (lexpr : Option Node) (relations : Relations) :
    Except Err String :=
  match lexpr with
  | none => .error "Left side of WHERE clause must be a column or expression"
  | some le =>
    match le with
    | .aExpr k2 n2 l2 r2 =>
      match processJsonTarget (.aExpr k2 n2 l2 r2) relations with
      | .ok t => .ok t.column
      | .error _ => .error "Left side of WHERE clause must be a column"
    | .columnRef fields =>
      match fields with
      | none => .error "Left side of WHERE clause must reference a column"
      | some fs =>
        if fs.length = 0 then .error "Left side of WHERE clause must reference a column"
        else renderFields fs relations
    | .typeCast _ _ => .error "Casting is not supported in the WHERE clause"
    | .funcCall funcname args _aggStar =>
      match funcname with
      | none => .error "Left side of WHERE clause must reference a column"
      | some fn => do
        let functionName ← renderFields fn relations
        if operator == some "fts" then
          if functionName = "to_tsvector" then
            match args with
            | none => .error s!"{functionName} requires 1 column argument"
            | some argl =>
              if argl.length ≠ 1 then .error s!"{functionName} requires 1 column argument"
              else
                match argl.head? with
                | none => .error s!"{functionName} requires a column argument"
                | some arg =>
                  match arg with
                  | .aExpr k2 n2 l2 r2 =>
                    match processJsonTarget (.aExpr k2 n2 l2 r2) relations with
                    | .ok t => .ok t.column
                    | .error _ => .error s!"{functionName} requires a column argument"
                  | .columnRef fields =>
                    match fields with
                    | none => .error s!"{functionName} requires a column argument"
                    | some fs => renderFields fs relations
                  | .typeCast _ _ => .error "Casting is not supported in the WHERE clause"
                  | _ => .error s!"{functionName} requires a column argument"
          else
            .error "Only \x27to_tsvector\x27 function allowed on left side of text search operator"
        else
          .error "Left side of WHERE clause must be a column"
    | _ => .error "Left side of WHERE clause must be a column"

/-- The `eq/neq/gt/gte/lt/lte` branch of `processWhereClause`. -/
def whereComparisonBranch (column operatorSymbol opname : String) (rexpr : Option Node) :
    Except Err Filter :=
  match rexpr with
  | none =>
    .error s!"Right side of WHERE clause \x27{operatorSymbol}\x27 expression must be present"
  | some (.aConst c) => do
    let value ← parseConstant c
    .ok (.column column opname false value none)
  | some _ =>
    .error s!"Right side of WHERE clause \x27{operatorSymbol}\x27 expression must be a constant"

/-- The `between` family branch of `processWhereClause` (symmetric swap,
JS-falsy bound guards, `and(gte, lte)` expansion). -/
def whereBetweenBranch (column operator operatorSymbol : String) (rexpr : Option Node) :
    Except Err Filter :=
  match rexpr with
  | none =>
    .error s!"Right side of WHERE clause \x27{operatorSymbol}\x27 expression must be present"
  | some (.nlist items) =>
    match items with
    | some [item1, item2] => do
      let leftValue0 ← match item1 with
        | .aConst c => parseConstant c
        | _ =>
          Except.error
            s!"Right side of WHERE clause \x27{operatorSymbol}\x27 expression must contain two constants"
      let rightValue0 ← match item2 with
        | .aConst c => parseConstant c
        | _ =>
          Except.error
            s!"Right side of WHERE clause \x27{operatorSymbol}\x27 expression must contain two constants"
      let swapped ←
        if jsIncludes operator "symmetric" then
          match leftValue0, rightValue0 with
          | .num a, .num b =>
            -- if the left value is greater than the right, swap them
            if a > b then Except.ok ((Value.num b, Value.num a))
            else Except.ok ((Value.num a, Value.num b))
          | _, _ => Except.error "BETWEEN SYMMETRIC is only supported with number values"
        else
          Except.ok ((leftValue0, rightValue0))
      let leftValue := swapped.1
      let rightValue := swapped.2
      if leftValue.falsy then
        Except.error
          s!"Left side of WHERE clause \x27{operatorSymbol}\x27 expression must be a constant"
      else if rightValue.falsy then
        Except.error
          s!"Right side of WHERE clause \x27{operatorSymbol}\x27 expression must be a constant"
      else
        Except.ok (.logical "and" (jsIncludes operator "not")
          [.column column "gte" false leftValue none,
           .column column "lte" false rightValue none])
    | _ =>
      .error s!"Right side of WHERE clause \x27{operatorSymbol}\x27 expression must contain two constants"
  | some _ =>
    .error s!"Right side of WHERE clause \x27{operatorSymbol}\x27 expression must contain two constants"

/-- The `like/ilike/match/imatch` branch of `processWhereClause`. -/
def whereLikeBranch (column opname operatorSymbol : String) (rexpr : Option Node) :
    Except Err Filter :=
  match rexpr with
  | none =>
    .error s!"Right side of WHERE clause \x27{operatorSymbol}\x27 expression must be present"
  | some (.aConst (.sval (some v))) =>
    if v = "" then
      .error s!"Right side of WHERE clause \x27{opname}\x27 expression must be a string constant"
    else
      .ok (.column column opname false (.str v) none)
  | some _ =>
    .error s!"Right side of WHERE clause \x27{opname}\x27 expression must be a string constant"

/-- The `in` branch of `processWhereClause`. -/
def whereInBranch (column operatorSymbol : String) (rexpr : Option Node) :
    Except Err Filter :=
  match rexpr with
  | none =>
    .error s!"Right side of WHERE clause \x27{operatorSymbol}\x27 expression must be present"
  | some (.nlist (some l)) =>
    if l.all (fun item => match item with | .aConst _ => true | _ => false) then do
      let vs ← mapEx (fun item =>
        match item with
        | .aConst c => parseConstant c
        -- unreachable: every item was checked to be an A_Const above
        | _ => .error "Right side of WHERE clause \x27in\x27 expression must be a list of constants") l
      .ok (.column column "in" false (.vlist vs) none)
    else
      .error "Right side of WHERE clause \x27in\x27 expression must be a list of constants"
  | some _ =>
    .error "Right side of WHERE clause \x27in\x27 expression must be a list of constants"

/-- The `@@` (full-text search) branch of `processWhereClause`. -/
def whereFtsBranch (column operatorSymbol : String) (rexpr : Option Node)
    (relations : Relations) : Except Err Filter :=
  match rexpr with
  | none =>
    .error s!"Right side of WHERE clause \x27{operatorSymbol}\x27 expression must be present"
  | some (.funcCall funcname args _aggStar) =>
    match funcname with
    | none =>
      .error s!"Right side of WHERE clause \x27{operatorSymbol}\x27 expression must be one of these functions: to_tsquery, plainto_tsquery, phraseto_tsquery, websearch_to_tsquery"
    | some fn => do
      let functionName ← renderFields fn relations
      if ¬ (functionName = "to_tsquery" ∨ functionName = "plainto_tsquery" ∨
            functionName = "phraseto_tsquery" ∨ functionName = "websearch_to_tsquery") then
        Except.error s!"Right side of WHERE clause \x27{operatorSymbol}\x27 expression must be one of these functions: to_tsquery, plainto_tsquery, phraseto_tsquery, websearch_to_tsquery"
      else
        match args with
        | none => Except.error s!"{functionName} requires 1 or 2 arguments"
        | some argl =>
          if argl.length = 0 ∨ argl.length > 2 then
            Except.error s!"{functionName} requires 1 or 2 arguments"
          else do
            let argStrs ← mapEx (fun arg =>
              match arg with
              | .aConst (.sval (some s)) =>
                if s = "" then Except.error s!"{functionName} only accepts text arguments"
                else Except.ok s
              | _ => Except.error s!"{functionName} only accepts text arguments") argl
            -- config (eg. 'english') is the first argument if passed;
            -- query is always the last argument
            let config := sliceSecondLast (argStrs.map some)
            let query? := sliceLast (argStrs.map some)
            match query? with
            | some q =>
              if q = "" then Except.error s!"{functionName} requires a query argument"
              else do
                let operator ← mapTextSearchFunction functionName
                Except.ok (.column column operator false (.str q) config)
            | none => Except.error s!"{functionName} requires a query argument"
  | some _ =>
    .error s!"Right side of WHERE clause \x27{operatorSymbol}\x27 expression must be one of these functions: to_tsquery, plainto_tsquery, phraseto_tsquery, websearch_to_tsquery"

/-- The whole `A_Expr` arm of `processWhereClause` (filter.ts lines 7–345).
Non-recursive; the operator-category branches live in the `where*Branch`
helpers above, in source order. -/
def whereAExpr (kind : Option String) (nameL : Option (List Node)) (lexpr rexpr : Option Node)
    (relations : Relations) : Except Err Filter :=
  match nameL with
  | none => .error "Only one operator name supported per expression"
  | some nl =>
    if nl.length > 1 then .error "Only one operator name supported per expression"
    else
      match kind with
      | none => .error "WHERE clause must have an operator kind"
      | some k =>
        if k = "" then .error "WHERE clause must have an operator kind"
        else
          match nl.head? with
          | none => .error "WHERE clause must have an operator name"
          | some (.pgString sv) =>
            match sv with
            | none => .error "WHERE clause operator name cannot be empty"
            | some svv =>
              if svv = "" then .error "WHERE clause operator name cannot be empty"
              else do
                let operatorSymbol := jsToLower svv
                let operator ← mapOperatorSymbol k operatorSymbol
                let column ← whereLeftColumn operator lexpr relations
                if operator == some "eq" ∨ operator == some "neq" ∨ operator == some "gt" ∨
                   operator == some "gte" ∨ operator == some "lt" ∨ operator == some "lte" then
                  whereComparisonBranch column operatorSymbol (operator.getD "") rexpr
                else if operator == some "between" ∨ operator == some "between symmetric" ∨
                        operator == some "not between" ∨
                        operator == some "not between symmetric" then
                  whereBetweenBranch column (operator.getD "") operatorSymbol rexpr
                else if operator == some "like" ∨ operator == some "ilike" ∨
                        operator == some "match" ∨ operator == some "imatch" then
                  whereLikeBranch column (operator.getD "") operatorSymbol rexpr
                else if operator == some "in" then
                  whereInBranch column operatorSymbol rexpr
                else if operator == some "fts" then
                  whereFtsBranch column operatorSymbol rexpr relations
                else
                  .error s!"Unsupported operator \x27{operatorSymbol}\x27"
          | some _ => .error "WHERE clause operator name must be a string"

mutual

/-- `processWhereClause(expression, relations)`. -/
def processWhereClause (expression : Node) (relations : Relations) : Except Err Filter :=
  match expression with
  | .aExpr kind name lexpr rexpr => whereAExpr kind name lexpr rexpr relations
  | .nullTest arg nulltesttype =>
    (match arg with
     | some (.columnRef fields) =>
       match fields with
       | none => .error "NullTest expression must reference a column"
       | some fs => do
         let column ← renderFields fs relations
         .ok (.column column "is" (nulltesttype == some "IS_NOT_NULL") .null none)
     | _ => .error "NullTest expression must have an argument of type ColumnRef")
  | .boolExpr boolop args =>
    (do
      let operator ← match boolop with
        | some "AND_EXPR" => Except.ok "and"
        | some "OR_EXPR" => Except.ok "or"
        | some "NOT_EXPR" => Except.ok "not"
        | b =>
          let bs := b.getD "undefined"
          Except.error s!"Unknown boolop \x27{bs}\x27"
      match args with
      | none => Except.error "BoolExpr must have arguments"
      | some argl => do
        let values ← processWhereList argl relations
        -- The 'not' operator is special - instead of wrapping its child,
        -- we just return the child directly and set negate=true on it.
        if operator = "not" then
          if values.length > 1 then
            let n := values.length
            Except.error s!"NOT expressions must have only 1 child, but received {n} children"
          else
            match values with
            | [filt] => Except.ok (filt.setNegate true)
            | _ => Except.error "NOT expression must have a child filter"
        else
          Except.ok (.logical operator false values))
  | _ => .error "The WHERE clause must contain an expression"

/-- `expression.BoolExpr.args.map((arg) => processWhereClause(arg, relations))`
(an eager, leftmost-error map). -/
def processWhereList (l : List Node) (relations : Relations) : Except Err (List Filter) :=
  match l with
  | [] => .ok []
  | x :: xs => do
    let y ← processWhereClause x relations
    let ys ← processWhereList xs relations
    .ok (y :: ys)

end

end SqlToRest
namespace SqlToRest

/-! ## processor/select.ts -/

/-- `supportedAggregateFunctions`. -/
def supportedAggregateFunctions : List String := ["avg", "count", "max", "min", "sum"]

/-- `mapJoinType(joinType)`. -/
def mapJoinType (joinType : String) : Except Err String :=
  match joinType with
  | "JOIN_INNER" => .ok "inner"
  | "JOIN_LEFT" => .ok "left"
  | _ => .error s!"Unsupported join type \x27{joinType}\x27"

/-- The `type` discriminator string of a target. -/
def Target.typeTag : Target → String
  | .column _ _ _ => "column-target"
  | .aggregate _ _ _ _ _ => "aggregate-target"
  | .embedded _ _ _ _ _ _ _ => "embedded-target"

/-- `target.alias = resTarget.name` (field assignment). -/
def Target.withAlias : Target → Option String → Target
  | .column c _ cast, a => .column c a cast
  | .aggregate fn col _ ic oc, a => .aggregate fn col a ic oc
  | .embedded rel _ jt ets fl l r, a => .embedded rel a jt ets fl l r

/-- `target.column = columnName` (field assignment). -/
def Target.setColumn : Target → String → Target
  | .column _ a cast, col => .column col a cast
  | .aggregate fn _ a ic oc, col => .aggregate fn (some col) a ic oc
  | .embedded rel a jt ets fl l r, _ => .embedded rel a jt ets fl l r

/-- `t.alias && !t.flatten ? t.alias : t.relation` — the resolution key used
both when routing a prefixed column into an embedded target (second pass of
`processTargetList`) and when the GROUP BY validator prefixes a joined
column with its parent. -/
def embKeyNoFlat (e : Embedded) : String :=
  if (match e.alias_ with
      | some al => al != "" && ! e.flatten
      | none => false) then e.alias_.getD "" else e.relation

/-- The per-side relation resolution inside `processFromClause`
(the source repeats this block verbatim for the left and for the right
qualifier column; `sideMsg` is `"Left side"` / `"Right side"`). -/
def resolveQualifierRelation (relationName : Option String) (primaryRef : String)
    (existingRelations : List (Option String)) (joinedRelation : Option String)
    (sideMsg : String) : Except Err String :=
  if optFalsy relationName then .ok primaryRef
  else if existingRelations.contains relationName then .ok (relationName.getD "")
  else if relationName == joinedRelation then .ok (joinedRelation.getD "")
  else
    let lrn := relationName.getD ""
    let ex := String.intercalate ", " (existingRelations.map (fun r => r.getD ""))
    .error s!"{sideMsg} of join qualifier references a different relation ({lrn}) than the join ({ex})"

/-- `fields.map((field) => field.String.sval)` — the preceding
every-field-is-a-String check rules the `none` arm out. -/
def fieldSvals (fs : List Node) : List (Option String) :=
  fs.map (fun f => match f with | .pgString sv => sv | _ => none)

/-- The join-qualifier lowering inside `processFromClause` (select.ts lines
151–282): checks that the qualifier is an `=` between two qualified column
references, resolves each side against the environment, rejects
same-relation and not-reaching-the-join qualifiers, and returns the
canonicalized `(left, right)` pair — `left` always the parent side,
`right` always the newly joined relation. -/
def processJoinQualifier (qname : Option (List Node)) (qlexpr qrexpr : Option Node)
    (primaryRef : String) (existingRelations : List (Option String))
    (joinedRelation : Option String) : Except Err (JoinedColumn × JoinedColumn) :=
  match qlexpr with
  | some (.columnRef lfsOpt) =>
    (match lfsOpt with
     | none => .error "Left side column of join qualifier must contain String fields"
     | some lfl =>
       if ¬ (lfl.all (fun f => match f with | .pgString _ => true | _ => false)) then
         .error "Left side column of join qualifier must contain String fields"
       else
         let leftColumnFields : List (Option String) := fieldSvals lfl
         let leftRelationName := sliceSecondLast leftColumnFields
         let leftColumnName := sliceLast leftColumnFields
         if optFalsy leftColumnName then
           .error "Left side of join qualifier must have a column name"
         else
           (do
            let leftQualifierRelation ← resolveQualifierRelation leftRelationName
              primaryRef existingRelations joinedRelation "Left side"
            match qrexpr with
            | none => Except.error "Join qualifier must have a right side expression"
            | some (.columnRef rfsOpt) =>
              (match rfsOpt with
               | none =>
                 Except.error "Right side column of join qualifier must contain String fields"
               | some rl =>
                 if ¬ (rl.all (fun f => match f with | .pgString _ => true | _ => false)) then
                   Except.error "Right side column of join qualifier must contain String fields"
                 else
                   let rightColumnFields : List (Option String) := fieldSvals rl
                   let rightRelationName := sliceSecondLast rightColumnFields
                   let rightColumnName := sliceLast rightColumnFields
                   if optFalsy rightColumnName then
                     Except.error "Right side of join qualifier must have a column name"
                   else
                     (do
                      let rightQualifierRelation ← resolveQualifierRelation rightRelationName
                        primaryRef existingRelations joinedRelation "Right side"
                      if rightQualifierRelation = leftQualifierRelation then
                        -- TODO (source): support for recursive relationships
                        Except.error "Join qualifier cannot compare columns from same relation"
                      else if some rightQualifierRelation ≠ joinedRelation ∧
                              some leftQualifierRelation ≠ joinedRelation then
                        Except.error "Join qualifier must reference a column from the joined table"
                      else
                        (match qname with
                         | none => Except.error "Join qualifier must have an operator"
                         | some qnl =>
                           (match qnl.head? with
                            | none => Except.error "Join qualifier operator must be a string"
                            | some (.pgString qsv) =>
                              if ¬ (qsv == some "=") then
                                Except.error "Join qualifier operator must be \x27=\x27"
                              else
                                -- If left qualifier referenced the joined relation,
                                -- swap left and right
                                let lc : JoinedColumn :=
                                  ⟨leftQualifierRelation, leftColumnName.getD ""⟩
                                let rc : JoinedColumn :=
                                  ⟨rightQualifierRelation, rightColumnName.getD ""⟩
                                if some rightQualifierRelation == joinedRelation then
                                  Except.ok ((lc, rc))
                                else
                                  Except.ok ((rc, lc))
                            | some _ =>
                              Except.error "Join qualifier operator must be a string"))))
            | some _ => Except.error "Right side of join qualifier must be a column"))
  | _ => .error "Left side of join qualifier must be a column"

/-- `processFromClause(fromClause)`: builds the relations environment,
recursing left-first through join expressions. -/
def processFromClause (fromClause : Node) : Except Err Relations :=
  match fromClause with
  | .rangeVar relname al =>
    (match relname with
     | some r =>
       if r = "" then .error "The FROM clause must have a relation name"
       else .ok ⟨⟨r, al⟩, []⟩
     | none => .error "The FROM clause must have a relation name")
  | .joinExpr jointype larg rarg quals =>
    (match jointype with
     | none => .error "Join expression must have a join type"
     | some jt =>
       if jt = "" then .error "Join expression must have a join type"
       else
         (match larg, rarg with
          | none, _ => .error "Join expression must have both left and right relations"
          | some _, none => .error "Join expression must have both left and right relations"
          | some la, some ra =>
            (do
             let joinType ← mapJoinType jt
             let rels ← processFromClause la
             let primary := rels.primary
             let joined := rels.joined
             match ra with
             | .rangeVar rrelname ralias =>
               let joinedRelation : Option String := ralias.orElse (fun _ => rrelname)
               let existingRelations : List (Option String) :=
                 some primary.reference ::
                   (joined.map (fun t => some (embReference t)) ++ [joinedRelation])
               (match quals with
                | some (.aExpr _qkind qname qlexpr qrexpr) =>
                  (do
                   let lr ← processJoinQualifier qname qlexpr qrexpr primary.reference
                     existingRelations joinedRelation
                   match rrelname with
                   | none => Except.error "Join expression must have a right relation name"
                   | some rr =>
                     if rr = "" then
                       Except.error "Join expression must have a right relation name"
                     else
                       let embeddedTarget : Embedded :=
                         { relation := rr, alias_ := ralias, joinType := joinType,
                           targets := [], flatten := true, left := lr.1, right := lr.2 }
                       Except.ok ⟨primary, joined ++ [embeddedTarget]⟩)
                | _ => Except.error "Join qualifier must be an expression comparing columns")
             | _ => Except.error "Join expression must have a right relation of type RangeVar")))
  | f =>
    let t := f.tag
    .error s!"Unsupported FROM clause type \x27{t}\x27"

/-- `processTarget(target, relations)`, with the bodies of `processCast`,
`processColumn`, `processExpression` and `processFunctionCall` inlined into
the corresponding match arms (they are kept in one definition so the
recursion through nested casts/aggregates stays structural). -/
def processTarget (target : Node) (relations : Relations) : Except Err Target :=
  match target with
  -- processCast(target.TypeCast, relations)
  | .typeCast arg typeNames => do
    match typeNames with
    | none => Except.error "Type cast must have a type name"
    | some tns => do
      let names ← mapEx (fun n =>
        match n with
        | .pgString sv => Except.ok sv
        | _ => Except.error "Type cast name must be a string") tns
      let cast ← renderDataType names
      match arg with
      | none => Except.error "Type cast must have an argument"
      | some a =>
        match a with
        | .aConst _ =>
          Except.error "Only columns, JSON fields, and aggregates are supported as query targets"
        | _ => do
          let nestedTarget ← processTarget a relations
          match nestedTarget with
          | .aggregate fn col al ic _oc => Except.ok (.aggregate fn col al ic cast)
          | .column c al _cast => Except.ok (.column c al cast)
          | t =>
            let tt := t.typeTag
            Except.error s!"Cannot process target with type \x27{tt}\x27"
  -- processColumn(target.ColumnRef, relations)
  | .columnRef fields =>
    (match fields with
     | none => .error "Column reference must have fields"
     | some fs => do
       let column ← renderFields fs relations
       .ok (.column column none none))
  -- processExpression(target.A_Expr, relations)
  | .aExpr k n l r =>
    (match processJsonTarget (.aExpr k n l r) relations with
     | .ok t => .ok (.column t.column none t.cast)
     | .error _ => .error "Expressions not supported as targets")
  -- processFunctionCall(target.FuncCall, relations)
  | .funcCall funcname args aggStar => do
    match funcname with
    | none => Except.error "Aggregate function must have a name"
    | some fn => do
      let functionName ← renderFields fn relations
      if ¬ (supportedAggregateFunctions.contains functionName) then
        Except.error "Only the following aggregate functions are supported: [\"avg\",\"count\",\"max\",\"min\",\"sum\"]"
      else
        -- The `count(*)` special case that has no columns attached
        if functionName = "count" ∧ args.isNone ∧ aggStar then
          Except.ok (.aggregate functionName none none none none)
        else
          match args with
          | none =>
            Except.error s!"Aggregate function \x27{functionName}\x27 requires a column argument"
          | some argl =>
            if argl.length > 1 then
              Except.error "Aggregate functions only accept one argument"
            else
              match argl with
              | [] =>
                Except.error s!"Aggregate function \x27{functionName}\x27 requires a column argument"
              | arg1 :: _ => do
                let nestedTarget ← processTarget arg1 relations
                match nestedTarget with
                | .aggregate _ _ _ _ _ =>
                  Except.error "Aggregate functions cannot contain another function"
                | .column c al cast =>
                  Except.ok (.aggregate functionName (some c) al cast none)
                -- unreachable: processTarget never returns an embedded target
                | t =>
                  let tt := t.typeTag
                  Except.error s!"Cannot process target with type \x27{tt}\x27"
  | _ => .error "Only columns, JSON fields, and aggregates are supported as query targets"

/-- The second pass of `processTargetList`: transfer joined columns into the
matching embedded target of the environment (a JS `filter` whose callback
pushes into `relations.joined[i].targets`); returns the kept top-level
targets together with the updated joined list. -/
def routeTargets (ts : List Target) (joined : List Embedded) :
    Except Err (List Target × List Embedded) :=
  match ts with
  | [] => .ok ([], joined)
  | t :: rest =>
    match t with
    -- aggregate without a column (`count()`): always stays at the top level
    | .aggregate fn none a ic oc => do
      let p ← routeTargets rest joined
      .ok ((Target.aggregate fn none a ic oc) :: p.1, p.2)
    | _ => do
      let col :=
        match t with
        | .column c _ _ => c
        | .aggregate _ c _ _ _ => c.getD ""
        | .embedded _ _ _ _ _ _ _ => ""
      let qualifiedName := (jsSplitDot col).map some
      let relationName := sliceSecondLast qualifiedName
      let columnName := sliceLast qualifiedName
      if optFalsy relationName then do
        -- no prefix: belongs to the primary relation at the top level
        let p ← routeTargets rest joined
        Except.ok (t :: p.1, p.2)
      else if optFalsy columnName then
        Except.error "Column name cannot be empty in target list"
      else
        match joined.findIdx? (fun e => embKeyNoFlat e == relationName.getD "") with
        | none =>
          Except.error s!"Found foreign column \x27{col}\x27 in target list without a join to that relation"
        | some i => do
          let t' := t.setColumn (columnName.getD "")
          let joined' := updateAt joined i (fun e => { e with targets := e.targets ++ [t'] })
          let p ← routeTargets rest joined'
          Except.ok (p.1, p.2)
termination_by structural ts

/-- `relations.joined.find((t) => (t.alias ?? t.relation) === leftRel)`,
as an index. -/
def parentIdx (joined : List Embedded) (leftRel : String) : Option Nat :=
  joined.findIdx? (fun t => embReference t == leftRel)

/-- First embedded target that is not joined to the primary relation and
has no parent among the joined targets (the third pass fails on it). -/
def firstOrphan (primaryRef : String) (joined : List Embedded) : Option Embedded :=
  joined.find? (fun e =>
    (e.left.relation != primaryRef) && (parentIdx joined e.left.relation).isNone)

/-- Final state of `joined[i]` after the third pass of `processTargetList`.

The source nests by mutating shared objects:
`parent.targets.push(embeddedTarget)` appends each non-top-level embedded
target (in ascending index order) to its parent, and every occurrence of
that object — in the output list and inside other targets — observes the
push.  The fixed point of those mutations is: the final `targets` of
`joined[i]` are its pass-two targets followed by the final states of its
children, in ascending index order.  Children always have a strictly larger
index than their parent for environments built by `processFromClause`, so a
fuel of `joined.length` reaches the fixed point. -/
def finalEmb (primaryRef : String) (joined : List Embedded) : Nat → Nat → Embedded
  | 0, i => joined.getD i default
  | fuel + 1, i =>
    let e := joined.getD i default
    let kidIdxs := (List.range joined.length).filter (fun k =>
      let ek := joined.getD k default
      (ek.left.relation != primaryRef) && (parentIdx joined ek.left.relation == some i))
    { e with targets := e.targets ++
        kidIdxs.map (fun k => (finalEmb primaryRef joined fuel k).toTarget) }

/-- `processTargetList(targetList, relations)`.

The source returns only the target list and mutates `relations` in place;
here the updated environment is returned alongside (second component), so
that the mutation is observable. -/
def processTargetList (targetList : List ResTarget) (relations : Relations) :
    Except Err (List Target × Relations) := do
  -- First pass: map each SQL target column to a PostgREST target 1-to-1
  let flattenedColumnTargets ← mapEx (fun rt =>
    match rt.val with
    | none => Except.error "Target list item must have a value"
    | some v => do
      let t ← processTarget v relations
      Except.ok (t.withAlias rt.name)) targetList
  -- Second pass: transfer joined columns to `embeddedTargets`
  let p2 ← routeTargets flattenedColumnTargets relations.joined
  let columnTargets := p2.1
  let joined2 := p2.2
  -- Third pass: nest embedded targets within each other based on the
  -- relations in their join qualifiers
  let primaryRef := relations.primary.reference
  match firstOrphan primaryRef joined2 with
  | some orphan =>
    let r := orphan.relation
    Except.error s!"Something went wrong, could not find parent embedded target for nested embedded target \x27{r}\x27"
  | none =>
    let n := joined2.length
    let finalJoined := (List.range n).map (fun i => finalEmb primaryRef joined2 n i)
    let nestedEmbeddedTargets :=
      ((List.range n).filter (fun i => (joined2.getD i default).left.relation == primaryRef)).map
        (fun i => (finalEmb primaryRef joined2 n i).toTarget)
    Except.ok (columnTargets ++ nestedEmbeddedTargets, ⟨relations.primary, finalJoined⟩)

/-! ## processor/util.ts traversal helpers and processor/aggregate.ts -/

mutual

/-- The per-element step of `someTarget`. -/
def someTargetOne (t : Target) (predicate : Target → Option Embedded → Bool)
    (parent : Option Embedded) : Bool :=
  match t with
  | .column c a cast => predicate (.column c a cast) parent
  | .aggregate fn col a ic oc => predicate (.aggregate fn col a ic oc) parent
  | .embedded rel al jt ets fl l r => someTarget ets predicate (some ⟨rel, al, jt, ets, fl, l, r⟩)

/-- `someTarget(targets, predicate, parent)`: does the predicate match any
column/aggregate target, descending through embedded targets? -/
def someTarget (targets : List Target) (predicate : Target → Option Embedded → Bool)
    (parent : Option Embedded := none) : Bool :=
  match targets with
  | [] => false
  | t :: ts => someTargetOne t predicate parent || someTarget ts predicate parent

end

mutual

/-- The per-element step of `everyTarget`. -/
def everyTargetOne (t : Target) (predicate : Target → Option Embedded → Bool)
    (parent : Option Embedded) : Bool :=
  match t with
  | .column c a cast => predicate (.column c a cast) parent
  | .aggregate fn col a ic oc => predicate (.aggregate fn col a ic oc) parent
  | .embedded rel al jt ets fl l r => everyTarget ets predicate (some ⟨rel, al, jt, ets, fl, l, r⟩)

/-- `everyTarget(targets, predicate, parent)`. -/
def everyTarget (targets : List Target) (predicate : Target → Option Embedded → Bool)
    (parent : Option Embedded := none) : Bool :=
  match targets with
  | [] => true
  | t :: ts => everyTargetOne t predicate parent && everyTarget ts predicate parent

end

/-- The `column` field of a target (`'column' in target` ↔ `isSome`). -/
def columnOf : Target → Option String
  | .column c _ _ => some c
  | .aggregate _ c _ _ _ => c
  | .embedded _ _ _ _ _ _ _ => none

/-- `target.type === 'aggregate-target'`. -/
def isAggregateTarget (t : Target) (_parent : Option Embedded) : Bool :=
  match t with
  | .aggregate _ _ _ _ _ => true
  | _ => false

/-- The qualified name of a (column/aggregate) target as built by the
GROUP BY validator: joined columns are prefixed with their parent's
`alias && !flatten ? alias : relation`, top-level columns have no prefix. -/
def targetPath (t : Target) (parent : Option Embedded) : Option String :=
  match columnOf t with
  | none => none
  | some c =>
    match parent with
    | some p => some (embKeyNoFlat p ++ "." ++ c)
    | none => some c

/-- Resolution of one GROUP BY column against the environment (the `map`
callback at the top of `validateGroupClause`; the source's `?? []` fallback
is dead because the new `renderFields` throws instead of returning
`undefined`). -/
def resolveGroupColumn (relations : Relations) (columnRef : ColumnRef) : Except Err String :=
  match columnRef.fields with
  | none => .error "Group by clause must contain at least one column"
  | some fs => renderFields fs relations

/-- The predicate of the first check of `validateGroupClause`: the target
projects exactly the group column (the bare-count special case has no
column attached and never matches). -/
def groupColumnMatches (column : String) (t : Target) (parent : Option Embedded) : Bool :=
  match targetPath t parent with
  | some qualifiedName => qualifiedName == column
  | none => false

/-- The predicate of the second check of `validateGroupClause`: the target
is an aggregate, or its qualified name appears in the group list. -/
def groupedOrAggregate (groupByColumns : List String) (t : Target)
    (parent : Option Embedded) : Bool :=
  if isAggregateTarget t parent then true
  else
    match targetPath t parent with
    | some qualifiedName => groupByColumns.contains qualifiedName
    | none => false

/-- `validateGroupClause(groupClause, targets, relations)`. -/
def validateGroupClause (groupClause : List ColumnRef) (targets : List Target)
    (relations : Relations) : Except Err Unit := do
  let groupByColumns ← mapEx (resolveGroupColumn relations) groupClause
  if ¬ (groupByColumns.all (fun column => someTarget targets (groupColumnMatches column))) then
    Except.error "Every group by column must also exist as a select target"
  else if someTarget targets isAggregateTarget &&
      ! (everyTarget targets (groupedOrAggregate groupByColumns)) then
    Except.error "Every non-aggregate select target must also exist in a group by clause"
  else if groupByColumns.length > 0 && ! (someTarget targets isAggregateTarget) then
    Except.error "There must be at least one aggregate function in the select target list when using group by"
  else
    Except.ok ()

/-! ## processor/limit.ts -/

/-- `processLimit(selectStmt)`.  The parser serialises the integer `0` as
an `ival` node with the inner value absent; the guard
`if (!selectStmt.limitCount.A_Const.ival)` tests the (always truthy)
`Integer` object, so `count` is assigned `...ival.ival`, which is
`undefined` (`none`) in that case. -/
def processLimit (selectStmt : SelectStmt) : Except Err (Option Limit) := do
  let count : Option Int ←
    match selectStmt.limitCount with
    | none => Except.ok none
    | some lc =>
      match lc with
      | .aConst v =>
        match v with
        | .ival i => Except.ok i
        | _ => Except.error "Limit count must be an integer"
      | _ => Except.error "Limit count must be an A_Const"
  let offset : Option Int ←
    match selectStmt.limitOffset with
    | none => Except.ok none
    | some lo =>
      match lo with
      | .aConst v =>
        match v with
        | .ival i => Except.ok i
        | _ => Except.error "Limit offset must be an integer"
      | _ => Except.error "Limit offset must be an A_Const"
  if count.isNone ∧ offset.isNone then
    Except.ok none
  else
    Except.ok (some ⟨count, offset⟩)

end SqlToRest
namespace SqlToRest

/-! ## Shared concrete fixtures for the theorems -/

/-- The environment of `from books` (no joins). -/
def booksRelations : Relations := ⟨⟨"books", none⟩, []⟩

/-- The embedded target of `books inner join authors on books.author_id = authors.id`. -/
def authorsJoin : Embedded :=
  ⟨"authors", none, "inner", [], true, ⟨"books", "author_id"⟩, ⟨"authors", "id"⟩⟩

/-- The environment after lowering that join. -/
def joinedBooksRelations : Relations := ⟨⟨"books", none⟩, [authorsJoin]⟩

/-- The parse tree of `col BETWEEN c1 AND c2`. -/
def betweenNode (c1 c2 : AConstV) : Node :=
  .aExpr (some "AEXPR_BETWEEN") (some [.pgString (some "BETWEEN")])
    (some (.columnRef (some [.pgString (some "col")])))
    (some (.nlist (some [.aConst c1, .aConst c2])))

/-- The parse tree of `col BETWEEN SYMMETRIC c1 AND c2`. -/
def betweenSymNode (c1 c2 : AConstV) : Node :=
  .aExpr (some "AEXPR_BETWEEN_SYM") (some [.pgString (some "BETWEEN SYMMETRIC")])
    (some (.columnRef (some [.pgString (some "col")])))
    (some (.nlist (some [.aConst c1, .aConst c2])))

/-- The parse tree of the projection item `count()` (a `FuncCall` with no
args and `agg_star` not set, which is how the parser represents `count()`),
and of `count(*)` (`agg_star` set). -/
def countBareNode : Node := .funcCall (some [.pgString (some "count")]) none false

/-- The parse tree of the projection item `count(*)`. -/
def countStarNode : Node := .funcCall (some [.pgString (some "count")]) none true

/-! ## C6 — LIMIT 0 -/

/-- C6: evaluation of `processLimit` at the failing input.  The parser
represents the integer constant `0` as an `ival` node whose inner value is
absent; the spec claims this is normalised back to `count = 0` and that the
returned limit is absent exactly when neither `limitCount` nor
`limitOffset` is present.  The code instead leaves `count` undefined, so
`LIMIT 0` alone produces **no** limit at all, and `LIMIT 0 OFFSET 10`
produces a limit with no count. -/
theorem C6_processLimit_drops_limit_zero :
    processLimit ⟨some (.aConst (.ival none)), none⟩ = .ok none ∧
    processLimit ⟨some (.aConst (.ival none)), some (.aConst (.ival (some 10)))⟩ =
      .ok (some ⟨none, some 10⟩) ∧
    processLimit ⟨some (.aConst (.ival (some 5))), some (.aConst (.ival (some 10)))⟩ =
      .ok (some ⟨some 5, some 10⟩) :=
  ⟨rfl, rfl, rfl⟩

/-! ## C3 — BETWEEN over constant bounds -/

/-- C3: evaluation of `processWhereClause` at the failing input
`col BETWEEN 0 AND 5` (the parser emits the left bound `0` as an `ival`
node with the value absent, and `parseConstant` duly normalises it back to
the number `0`).  The claim (and spec) promise the
`and(gte, lte)` expansion for any scalar-constant bounds, but the
JS-truthiness guard `if (!leftValue)` rejects the constant `0` (and would
likewise reject `''`), so lowering fails; with truthy bounds the promised
filter is produced. -/
theorem C3_between_rejects_zero_bound :
    processWhereClause (betweenNode (.ival none) (.ival (some 5))) booksRelations =
      .error "Left side of WHERE clause \x27between\x27 expression must be a constant" ∧
    processWhereClause (betweenNode (.ival (some 1)) (.ival (some 5))) booksRelations =
      .ok (.logical "and" false
        [.column "col" "gte" false (.num 1) none,
         .column "col" "lte" false (.num 5) none]) :=
  ⟨rfl, rfl⟩

/-! ## C7 — cast data-type canonicalization -/

/-- C7 counterexample: the claim says every schema-qualified cast type
name outside the four rewrites fails with `UnsupportedError`, but
`pg_catalog.text` is returned unchanged (the switch's default case returns
the unqualified name). -/
theorem C7_counterexample_pg_catalog_text :
    renderDataType [some "pg_catalog", some "text"] = .ok (some "text") ∧
    ∀ msg, renderDataType [some "pg_catalog", some "text"] ≠ .error msg := by
  refine ⟨rfl, ?_⟩
  intro msg h
  rw [show renderDataType [some "pg_catalog", some "text"] = .ok (some "text") from rfl] at h
  exact Except.noConfusion h

/-- C7 (amended): `renderDataType` rewrites `pg_catalog.int2/int4/int8/float8`
to `smallint/int/bigint/float`; any other two-segment `pg_catalog.X` name is
returned as the bare `X`; a multi-segment name whose head is not
`pg_catalog` (or with three or more segments) fails; a single-segment name
is returned unchanged. -/
theorem C7_renderDataType_amended :
    (renderDataType [some "pg_catalog", some "int2"] = .ok (some "smallint") ∧
     renderDataType [some "pg_catalog", some "int4"] = .ok (some "int") ∧
     renderDataType [some "pg_catalog", some "int8"] = .ok (some "bigint") ∧
     renderDataType [some "pg_catalog", some "float8"] = .ok (some "float")) ∧
    (∀ s : String, s ∉ (["int2", "int4", "int8", "float8"] : List String) →
      renderDataType [some "pg_catalog", some s] = .ok (some s)) ∧
    (∀ (n : Option String) (ns : List (Option String)), ns.length > 0 →
      ¬ (n = some "pg_catalog" ∧ ns.length = 1) →
      renderDataType (n :: ns) =
        .error "Casts can only reference data types by their unqualified name (not schema-qualified)") ∧
    (∀ n : Option String, renderDataType [n] = .ok n) := by
  refine ⟨⟨rfl, rfl, rfl, rfl⟩, ?_, ?_, ?_⟩
  · intro s hs
    simp only [List.mem_cons, List.not_mem_nil, or_false] at hs
    push_neg at hs
    simp only [renderDataType]
    rw [if_pos (⟨by simp, by simp⟩ :
      (((some "pg_catalog" : Option String) == some "pg_catalog") = true ∧
        ([some s] : List (Option String)).length = 1))]
    split <;> simp_all
  · intro n ns hlen hnot
    simp only [renderDataType]
    have hcond : ¬ ((n == some "pg_catalog") = true ∧ ns.length = 1) := by
      intro ⟨hb, hl⟩
      exact hnot ⟨by simpa using hb, hl⟩
    rw [if_neg hcond, if_pos hlen]
  · intro n
    simp only [renderDataType, List.length_nil]
    have hcond : ¬ ((n == some "pg_catalog") = true ∧ (0 : Nat) = 1) := by
      intro ⟨_, hl⟩
      exact absurd hl (by decide)
    rw [if_neg hcond]
    simp

/-- C7 witness: the amended theorem applied at concrete inputs. -/
theorem C7_renderDataType_amended_witness :
    renderDataType [some "pg_catalog", some "bool"] = .ok (some "bool") ∧
    renderDataType [some "myschema", some "mytype"] =
      .error "Casts can only reference data types by their unqualified name (not schema-qualified)" ∧
    renderDataType [some "text"] = .ok (some "text") :=
  ⟨C7_renderDataType_amended.2.1 "bool" (by decide),
   C7_renderDataType_amended.2.2.1 (some "myschema") [some "mytype"] (by decide) (by decide),
   C7_renderDataType_amended.2.2.2 (some "text")⟩

end SqlToRest
namespace SqlToRest

/-! ## Inversion helpers for `Except` computations -/

/-- Inversion of a successful bind. -/
theorem bindOk {α β : Type} {m : Except Err α} {k : α → Except Err β} {b : β}
    (h : (m >>= k) = .ok b) : ∃ a, m = .ok a ∧ k a = .ok b := by
  cases m with
  | error e => exact absurd h (by simp [Bind.bind, Except.bind])
  | ok a => exact ⟨a, rfl, by simpa [Bind.bind, Except.bind] using h⟩

/-- A bind with an error base is never ok. -/
theorem bindErr {α β : Type} {e : Err} {k : α → Except Err β} :
    ((Except.error e : Except Err α) >>= k) = Except.error e := rfl

/-- `routeTargets` keeps a column-less aggregate at the head. -/
theorem routeTargets_agg_cons (fn : String) (a ic oc : Option String) (ts : List Target)
    (joined : List Embedded) :
    routeTargets (Target.aggregate fn none a ic oc :: ts) joined =
      (routeTargets ts joined).map (fun p => (Target.aggregate fn none a ic oc :: p.1, p.2)) := by
  cases hr : routeTargets ts joined with
  | error e => simp [routeTargets, hr, Bind.bind, Except.bind, Except.map]
  | ok p => simp [routeTargets, hr, Bind.bind, Except.bind, Except.map]

/-- Inversion of a successful `Except.map`. -/
theorem mapOk {α β : Type} {m : Except Err α} {f : α → β} {b : β}
    (h : m.map f = .ok b) : ∃ a, m = .ok a ∧ b = f a := by
  cases m with
  | error e => exact absurd h (by simp [Except.map])
  | ok a => exact ⟨a, rfl, by simpa [Except.map] using h.symm⟩

/-! ## C5 — the bare `count()` projection -/

/-- C5 counterexample: the claim says the projection item `count()` — a
`FuncCall` named `count` with no arguments and `agg_star` not set, which is
what the parser produces for `select count() from books` — lowers to the
column-less `AggregateTarget`.  The special case in `processFunctionCall`
requires `agg_star` to be **set**, so bare `count()` is rejected. -/
theorem C5_counterexample_bare_count :
    processTarget countBareNode booksRelations =
      .error "Aggregate function \x27count\x27 requires a column argument" ∧
    ∀ t, processTarget countBareNode booksRelations ≠ .ok t := by
  refine ⟨rfl, ?_⟩
  intro t h
  rw [show processTarget countBareNode booksRelations =
    .error "Aggregate function \x27count\x27 requires a column argument" from rfl] at h
  exact Except.noConfusion h

/-- C5 (amended): the column-less special case fires for `count(*)` — a
`FuncCall` named `count` with no arguments and `agg_star` **set** — which
lowers (in any environment) to the `AggregateTarget` with functionName
`count` and no `column` field; and such a target, as the first projection
item, is always kept at the head of the top-level target list whenever
`processTargetList` succeeds. -/
theorem C5_count_star_amended :
    (∀ relations, processTarget countStarNode relations =
      .ok (.aggregate "count" none none none none)) ∧
    (∀ relations rest out,
      processTargetList (⟨none, some countStarNode⟩ :: rest) relations = .ok out →
      out.1.head? = some (.aggregate "count" none none none none)) := by
  constructor
  · intro relations
    rfl
  · intro relations rest out h
    unfold processTargetList at h
    obtain ⟨flat, hflat, h2⟩ := bindOk h
    -- the head of the first pass is the count aggregate
    rw [show (mapEx (fun rt =>
        match rt.val with
        | none => Except.error "Target list item must have a value"
        | some v => do
          let t ← processTarget v relations
          Except.ok (t.withAlias rt.name))
        (({ name := none, val := some countStarNode } : ResTarget) :: rest)) =
      ((mapEx (fun rt =>
        match rt.val with
        | none => Except.error "Target list item must have a value"
        | some v => do
          let t ← processTarget v relations
          Except.ok (t.withAlias rt.name)) rest) >>=
        (fun ys => Except.ok (Target.aggregate "count" none none none none :: ys)))
      from rfl] at hflat
    obtain ⟨ys, _hys, hcons⟩ := bindOk hflat
    simp only [Except.ok.injEq] at hcons
    subst hcons
    rw [routeTargets_agg_cons] at h2
    obtain ⟨p2, hp2, h3⟩ := bindOk h2
    obtain ⟨p, _hp, hform⟩ := mapOk hp2
    subst hform
    simp only [] at h3
    cases ho : firstOrphan relations.primary.reference p.2 with
    | some orphan =>
      rw [ho] at h3
      exact absurd h3 (by simp)
    | none =>
      rw [ho] at h3
      simp only [Except.ok.injEq] at h3
      subst h3
      rfl

end SqlToRest
namespace SqlToRest

/-! ## C4 — GROUP BY validation -/

/-- C4 counterexample: the claim says the "There must be at least one
aggregate function…" error is raised *whenever* the GROUP BY list is
non-empty and no aggregate target appears.  On `group by genre` with the
single projection `title` that condition holds, yet the validator raises
the *first* check's error instead ("Every group by column must also exist
as a select target"), because an unmatched group column is detected before
the aggregate check runs. -/
theorem C4_counterexample_error_priority :
    validateGroupClause [⟨some [.pgString (some "genre")]⟩] [.column "title" none none]
        booksRelations =
      .error "Every group by column must also exist as a select target" ∧
    someTarget [.column "title" none none] isAggregateTarget none = false ∧
    ("Every group by column must also exist as a select target" ≠
      "There must be at least one aggregate function in the select target list when using group by") :=
  ⟨rfl, rfl, by decide⟩

/-- C4 (amended): `validateGroupClause` raises
(i) "Every group by column must also exist as a select target" whenever the
group columns all resolve and some resolved column is matched by no
projected column/aggregate (bare `count()` never matches);
(ii) "There must be at least one aggregate function…" whenever the group
columns all resolve, **each matches a projected target**, and no aggregate
target appears anywhere in the projected tree; and
(iii) returns without error when all three checks pass. -/
theorem C4_validateGroupClause_amended :
    (∀ (groupClause : List ColumnRef) (targets : List Target) (relations : Relations)
        (cols : List String) (c : String),
      mapEx (resolveGroupColumn relations) groupClause = .ok cols →
      c ∈ cols →
      someTarget targets (groupColumnMatches c) none = false →
      validateGroupClause groupClause targets relations =
        .error "Every group by column must also exist as a select target") ∧
    (∀ (groupClause : List ColumnRef) (targets : List Target) (relations : Relations)
        (cols : List String),
      mapEx (resolveGroupColumn relations) groupClause = .ok cols →
      cols.all (fun col => someTarget targets (groupColumnMatches col) none) = true →
      someTarget targets isAggregateTarget none = false →
      cols.length > 0 →
      validateGroupClause groupClause targets relations =
        .error "There must be at least one aggregate function in the select target list when using group by") ∧
    (∀ (groupClause : List ColumnRef) (targets : List Target) (relations : Relations)
        (cols : List String),
      mapEx (resolveGroupColumn relations) groupClause = .ok cols →
      cols.all (fun col => someTarget targets (groupColumnMatches col) none) = true →
      (someTarget targets isAggregateTarget none &&
        ! everyTarget targets (groupedOrAggregate cols) none) = false →
      (decide (cols.length > 0) && ! someTarget targets isAggregateTarget none) = false →
      validateGroupClause groupClause targets relations = .ok ()) := by
  refine ⟨?_, ?_, ?_⟩
  · intro groupClause targets relations cols c hmap hc hpred
    unfold validateGroupClause
    rw [hmap]
    simp only [Bind.bind, Except.bind]
    rw [if_pos]
    intro hall
    have := List.all_eq_true.mp hall c hc
    rw [hpred] at this
    exact Bool.noConfusion this
  · intro groupClause targets relations cols hmap hall hagg hlen
    unfold validateGroupClause
    rw [hmap]
    simp only [Bind.bind, Except.bind]
    rw [if_neg (by simp [hall]), if_neg (by simp [hagg]), if_pos (by simp [hagg, hlen])]
  · intro groupClause targets relations cols hmap hall hchk2 hchk3
    unfold validateGroupClause
    rw [hmap]
    simp only [Bind.bind, Except.bind]
    rw [if_neg (by simp [hall]), if_neg (by simp [hchk2]), if_neg (by simp [hchk3])]

/-- C4 witness: the amended theorem applied at the concrete queries
`select title from books group by genre` (check (i) fires) and
`select genre, count(*) from books group by genre` (validation passes). -/
theorem C4_validateGroupClause_amended_witness :
    validateGroupClause [⟨some [.pgString (some "genre")]⟩] [.column "title" none none]
        booksRelations =
      .error "Every group by column must also exist as a select target" ∧
    validateGroupClause [⟨some [.pgString (some "genre")]⟩]
        [.column "genre" none none, .aggregate "count" none none none none]
        booksRelations = .ok () :=
  ⟨C4_validateGroupClause_amended.1 _ _ _ ["genre"] "genre" rfl (by simp) rfl,
   C4_validateGroupClause_amended.2.2 _ _ _ ["genre"] rfl rfl rfl rfl⟩

end SqlToRest
namespace SqlToRest

/-- C5 witness: the amended theorem applied at `select count(*) from books`. -/
theorem C5_count_star_amended_witness :
    processTarget countStarNode joinedBooksRelations =
      .ok (.aggregate "count" none none none none) ∧
    (([Target.aggregate "count" none none none none], booksRelations) :
        List Target × Relations).1.head? =
      some (.aggregate "count" none none none none) :=
  ⟨C5_count_star_amended.1 joinedBooksRelations,
   C5_count_star_amended.2 booksRelations [] _ rfl⟩

/-! ## C10 — double negation is not cancelled -/

/-- `setNegate true` is the identity on filters whose negate flag is
already set. -/
theorem setNegate_true_of_negate (f : Filter) (h : f.negate = true) :
    f.setNegate true = f := by
  cases f with
  | column c o n v cfg => simp only [Filter.negate] at h; rw [Filter.setNegate, h]
  | logical o n vs => simp only [Filter.negate] at h; rw [Filter.setNegate, h]

/-- C10: lowering `NOT e` assigns `negate = true` on the filter lowered
from `e` rather than toggling it; hence when `e` already lowers to a
negated filter (for example `col IS NOT NULL`), `NOT e` lowers to the
identical filter — double negation is not cancelled. -/
theorem C10_not_assigns_negate (e : Node) (relations : Relations) (f : Filter)
    (h : processWhereClause e relations = .ok f) (hneg : f.negate = true) :
    processWhereClause (.boolExpr (some "NOT_EXPR") (some [e])) relations = .ok f := by
  have hlist : processWhereList [e] relations = .ok [f] := by
    simp [processWhereList, h, Bind.bind, Except.bind]
  simp only [processWhereClause, Bind.bind, Except.bind, hlist]
  simp [setNegate_true_of_negate f hneg]

/-- C10 witness: `NOT (title IS NOT NULL)` lowers to exactly the filter of
`title IS NOT NULL`. -/
theorem C10_not_assigns_negate_witness :
    processWhereClause
      (.boolExpr (some "NOT_EXPR")
        (some [.nullTest (some (.columnRef (some [.pgString (some "title")])))
          (some "IS_NOT_NULL")]))
      booksRelations = .ok (.column "title" "is" true .null none) :=
  C10_not_assigns_negate _ booksRelations _ rfl rfl

end SqlToRest
namespace SqlToRest

/-! ## C1 — no `not` logical filter survives lowering -/

mutual

/-- Every logical node in the filter tree has operator `and` or `or`. -/
def Filter.andOrOnly : Filter → Bool
  | .column _ _ _ _ _ => true
  | .logical op _ vs => (op == "and" || op == "or") && andOrOnlyList vs

/-- `andOrOnly` on every element of a list. -/
def andOrOnlyList : List Filter → Bool
  | [] => true
  | f :: fs => f.andOrOnly && andOrOnlyList fs

end

/-- Setting the negate flag does not change the logical-operator shape. -/
theorem setNegate_andOrOnly (f : Filter) (b : Bool) :
    (f.setNegate b).andOrOnly = f.andOrOnly := by
  cases f <;> rfl

theorem whereComparisonBranch_andOr {c os opn : String} {r : Option Node} {f : Filter}
    (h : whereComparisonBranch c os opn r = .ok f) : f.andOrOnly = true := by
  unfold whereComparisonBranch at h
  try simp only [Bind.bind, Except.bind] at h
  repeat' split at h
  all_goals first
    | (simp only [Except.ok.injEq] at h; subst h; rfl)
    | exact Except.noConfusion h

theorem whereBetweenBranch_andOr {c op os : String} {r : Option Node} {f : Filter}
    (h : whereBetweenBranch c op os r = .ok f) : f.andOrOnly = true := by
  unfold whereBetweenBranch at h
  try simp only [Bind.bind, Except.bind] at h
  repeat' split at h
  all_goals first
    | (simp only [Except.ok.injEq] at h; subst h; rfl)
    | exact Except.noConfusion h

theorem whereLikeBranch_andOr {c opn os : String} {r : Option Node} {f : Filter}
    (h : whereLikeBranch c opn os r = .ok f) : f.andOrOnly = true := by
  unfold whereLikeBranch at h
  try simp only [Bind.bind, Except.bind] at h
  repeat' split at h
  all_goals first
    | (simp only [Except.ok.injEq] at h; subst h; rfl)
    | exact Except.noConfusion h

theorem whereInBranch_andOr {c os : String} {r : Option Node} {f : Filter}
    (h : whereInBranch c os r = .ok f) : f.andOrOnly = true := by
  unfold whereInBranch at h
  try simp only [Bind.bind, Except.bind] at h
  repeat' split at h
  all_goals first
    | (simp only [Except.ok.injEq] at h; subst h; rfl)
    | exact Except.noConfusion h

theorem whereFtsBranch_andOr {c os : String} {r : Option Node} {relations : Relations}
    {f : Filter} (h : whereFtsBranch c os r relations = .ok f) : f.andOrOnly = true := by
  unfold whereFtsBranch at h
  try simp only [Bind.bind, Except.bind] at h
  repeat' split at h
  all_goals first
    | (simp only [Except.ok.injEq] at h; subst h; rfl)
    | exact Except.noConfusion h

theorem whereAExpr_andOr {kind : Option String} {nameL : Option (List Node)}
    {lexpr rexpr : Option Node} {relations : Relations} {f : Filter}
    (h : whereAExpr kind nameL lexpr rexpr relations = .ok f) : f.andOrOnly = true := by
  unfold whereAExpr at h
  try simp only [Bind.bind, Except.bind] at h
  repeat' split at h
  all_goals first
    | exact whereComparisonBranch_andOr h
    | exact whereBetweenBranch_andOr h
    | exact whereLikeBranch_andOr h
    | exact whereInBranch_andOr h
    | exact whereFtsBranch_andOr h
    | exact Except.noConfusion h

end SqlToRest
namespace SqlToRest

/-- `processWhereList` maps one filter per input expression. -/
theorem processWhereList_length {l : List Node} {relations : Relations} {fs : List Filter}
    (h : processWhereList l relations = .ok fs) : fs.length = l.length := by
  induction l generalizing fs with
  | nil =>
    unfold processWhereList at h
    simp only [Except.ok.injEq] at h
    subst h
    rfl
  | cons x xs ih =>
    unfold processWhereList at h
    obtain ⟨y, _, h⟩ := bindOk h
    obtain ⟨ys, hys, h⟩ := bindOk h
    simp only [Except.ok.injEq] at h
    subst h
    simp [ih hys]

/-- The argument list of a `BoolExpr` node is smaller than the node. -/
theorem boolargs_size {bop : Option String} {argl : List Node} {n : Nat}
    (hsz : sizeOf (Node.boolExpr bop (some argl)) ≤ n) : sizeOf argl < n := by
  simp only [Node.boolExpr.sizeOf_spec, Option.some.sizeOf_spec] at hsz
  omega

/-- The no-`not` invariant, by strong induction on the size of the input
expression (the recursion of `processWhereClause` descends through
`BoolExpr` argument lists). -/
theorem pw_andOr_aux : ∀ n : Nat,
    (∀ (e : Node) (relations : Relations) (f : Filter), sizeOf e ≤ n →
      processWhereClause e relations = .ok f → f.andOrOnly = true) ∧
    (∀ (l : List Node) (relations : Relations) (fs : List Filter), sizeOf l ≤ n →
      processWhereList l relations = .ok fs → andOrOnlyList fs = true) := by
  intro n
  induction n using Nat.strong_induction_on with
  | _ n ih =>
    constructor
    · intro e relations f hsz h
      match e with
      | .aExpr k nm l r => exact whereAExpr_andOr h
      | .nullTest arg t =>
        unfold processWhereClause at h
        try simp only [Bind.bind, Except.bind] at h
        repeat' split at h
        all_goals first
          | (simp only [Except.ok.injEq] at h; subst h; rfl)
          | exact Except.noConfusion h
      | .boolExpr bop args =>
        unfold processWhereClause at h
        try simp only [Bind.bind, Except.bind] at h
        -- peel the boolop mapping and the args presence check
        repeat' split at h
        all_goals try exact Except.noConfusion h
        all_goals
          simp only [Except.ok.injEq] at h
          subst h
          have hlt := boolargs_size hsz
          have hvals := (ih _ hlt).2 _ _ _ le_rfl (by assumption)
          first
          | (rw [setNegate_andOrOnly]; simpa [andOrOnlyList] using hvals)
          | (simp [Filter.andOrOnly, hvals]; done)
          | simp_all
      | .aConst v => exact Except.noConfusion h
      | .columnRef fs => exact Except.noConfusion h
      | .pgString sv => exact Except.noConfusion h
      | .aStar => exact Except.noConfusion h
      | .funcCall a b c => exact Except.noConfusion h
      | .typeCast a b => exact Except.noConfusion h
      | .nlist a => exact Except.noConfusion h
      | .rangeVar a b => exact Except.noConfusion h
      | .joinExpr a b c d => exact Except.noConfusion h
      | .other t => exact Except.noConfusion h
    · intro l relations fs hsz h
      match l with
      | [] =>
        unfold processWhereList at h
        simp only [Except.ok.injEq] at h
        subst h
        rfl
      | x :: xs =>
        unfold processWhereList at h
        obtain ⟨y, hy, h⟩ := bindOk h
        obtain ⟨ys, hys, h⟩ := bindOk h
        simp only [Except.ok.injEq] at h
        subst h
        have hx : sizeOf x < n := by
          have : sizeOf x < sizeOf (x :: xs) := by
            simp only [List.cons.sizeOf_spec]
            omega
          omega
        have hxs : sizeOf xs < n := by
          have : sizeOf xs < sizeOf (x :: xs) := by
            simp only [List.cons.sizeOf_spec]
            omega
          omega
        have h1 := (ih (sizeOf x) hx).1 x relations y le_rfl hy
        have h2 := (ih (sizeOf xs) hxs).2 xs relations ys le_rfl hys
        simp [andOrOnlyList, h1, h2]

end SqlToRest
namespace SqlToRest

/-- C1: for every WHERE clause accepted by `processWhereClause`, the
returned filter tree contains no logical node with operator `not` — every
logical filter anywhere in the output is `and` or `or` (part 1); a
`NOT_EXPR` with exactly one child lowers to its child's filter with
`negate` set to `true` (part 2); and a `NOT_EXPR` whose several children
all lower successfully fails with the NOT-arity `UnsupportedError`
(part 3). -/
theorem C1_no_not_logical :
    (∀ (e : Node) (relations : Relations) (f : Filter),
      processWhereClause e relations = .ok f → f.andOrOnly = true) ∧
    (∀ (e : Node) (relations : Relations) (f : Filter),
      processWhereClause e relations = .ok f →
      processWhereClause (.boolExpr (some "NOT_EXPR") (some [e])) relations =
        .ok (f.setNegate true)) ∧
    (∀ (e1 e2 : Node) (es : List Node) (relations : Relations) (vs : List Filter),
      processWhereList (e1 :: e2 :: es) relations = .ok vs →
      processWhereClause (.boolExpr (some "NOT_EXPR") (some (e1 :: e2 :: es))) relations =
        .error s!"NOT expressions must have only 1 child, but received {vs.length} children") := by
  refine ⟨?_, ?_, ?_⟩
  · intro e relations f h
    exact (pw_andOr_aux (sizeOf e)).1 e relations f le_rfl h
  · intro e relations f h
    have hlist : processWhereList [e] relations = .ok [f] := by
      simp [processWhereList, h, Bind.bind, Except.bind]
    simp [processWhereClause, Bind.bind, Except.bind, hlist]
  · intro e1 e2 es relations vs h
    have hlen := processWhereList_length h
    simp only [List.length_cons] at hlen
    simp only [processWhereClause, Bind.bind, Except.bind, h]
    rw [if_pos (show vs.length > 1 by omega), if_pos trivial]

/-- C1 witness: the invariant evaluated on the filter of
`col BETWEEN 1 AND 5` (a logical `and` node), and the NOT-arity error on a
two-child `NOT_EXPR`. -/
theorem C1_no_not_logical_witness :
    (Filter.logical "and" false
      [.column "col" "gte" false (.num 1) none,
       .column "col" "lte" false (.num 5) none]).andOrOnly = true ∧
    processWhereClause
      (.boolExpr (some "NOT_EXPR")
        (some [.nullTest (some (.columnRef (some [.pgString (some "title")]))) (some "IS_NULL"),
               .nullTest (some (.columnRef (some [.pgString (some "title")]))) (some "IS_NULL")]))
      booksRelations =
      .error "NOT expressions must have only 1 child, but received 2 children" :=
  ⟨C1_no_not_logical.1 (betweenNode (.ival (some 1)) (.ival (some 5))) booksRelations _ rfl,
   C1_no_not_logical.2.2 _ _ [] booksRelations
     [.column "title" "is" false .null none, .column "title" "is" false .null none] rfl⟩

end SqlToRest
namespace SqlToRest

/-! ## C8 — BETWEEN SYMMETRIC -/

/-- Lowering `col BETWEEN SYMMETRIC c1 AND c2` reaches the between branch
with operator `between symmetric` (the surrounding dispatch does not look
at the bound constants). -/
theorem pw_betweenSym_eq (c1 c2 : AConstV) :
    processWhereClause (betweenSymNode c1 c2) booksRelations =
      whereBetweenBranch "col" "between symmetric" "between symmetric"
        (some (.nlist (some [.aConst c1, .aConst c2]))) := rfl

/-- Lowering `col BETWEEN c1 AND c2` reaches the between branch with
operator `between`. -/
theorem pw_between_eq (c1 c2 : AConstV) :
    processWhereClause (betweenNode c1 c2) booksRelations =
      whereBetweenBranch "col" "between" "between"
        (some (.nlist (some [.aConst c1, .aConst c2]))) := rfl

/-- C8: for numeric constants `a > b`, `col BETWEEN SYMMETRIC a AND b`
produces exactly the same filter as `col BETWEEN b AND a` (the bounds are
swapped before the `and(gte, lte)` expansion), and a BETWEEN SYMMETRIC
whose parsed bounds are not both numbers fails with the dedicated
`UnsupportedError`. -/
theorem C8_between_symmetric :
    (∀ a b : ℚ, a > b →
      (processWhereClause (betweenSymNode (.fval (some a)) (.fval (some b)))
        booksRelations).toOption =
      (processWhereClause (betweenNode (.fval (some b)) (.fval (some a)))
        booksRelations).toOption) ∧
    (∀ (c1 c2 : AConstV) (v1 v2 : Value),
      parseConstant c1 = .ok v1 → parseConstant c2 = .ok v2 →
      ¬ (v1.isNum = true ∧ v2.isNum = true) →
      processWhereClause (betweenSymNode c1 c2) booksRelations =
        .error "BETWEEN SYMMETRIC is only supported with number values") := by
  constructor
  · intro a b hab
    rw [pw_betweenSym_eq, pw_between_eq]
    simp only [whereBetweenBranch, Bind.bind, Except.bind, parseConstant]
    simp only [show jsIncludes "between symmetric" "symmetric" = true from rfl,
      show jsIncludes "between" "symmetric" = false from rfl,
      show jsIncludes "between symmetric" "not" = false from rfl,
      show jsIncludes "between" "not" = false from rfl, if_true, if_false]
    rw [if_pos hab]
    by_cases hb : b = 0
    · simp [Value.falsy, hb, Except.toOption]
    · by_cases ha : a = 0
      · simp [Value.falsy, hb, ha, Except.toOption]
      · simp [Value.falsy, hb, ha, Except.toOption]
  · intro c1 c2 v1 v2 h1 h2 hnot
    rw [pw_betweenSym_eq]
    simp only [whereBetweenBranch, Bind.bind, Except.bind, h1, h2]
    simp only [show jsIncludes "between symmetric" "symmetric" = true from rfl, if_true]
    cases v1 <;> cases v2 <;> simp_all [Value.isNum]

/-- C8 witness: the equivalence at `BETWEEN SYMMETRIC 3 AND 1` versus
`BETWEEN 1 AND 3`, and the error for a string bound. -/
theorem C8_between_symmetric_witness :
    (processWhereClause (betweenSymNode (.fval (some 3)) (.fval (some 1)))
        booksRelations).toOption =
      (processWhereClause (betweenNode (.fval (some 1)) (.fval (some 3)))
        booksRelations).toOption ∧
    processWhereClause (betweenSymNode (.sval (some "x")) (.fval (some 2)))
        booksRelations =
      .error "BETWEEN SYMMETRIC is only supported with number values" :=
  ⟨C8_between_symmetric.1 3 1 (by norm_num),
   C8_between_symmetric.2 (.sval (some "x")) (.fval (some 2)) (.str "x") (.num 2) rfl rfl
     (by simp [Value.isNum])⟩

end SqlToRest
namespace SqlToRest

/-! ## C9 — the relations environment across projection lowering -/

/-- Two embedded targets agree on everything except their `targets` list. -/
def agreesExceptTargets (e1 e2 : Embedded) : Prop :=
  e1.relation = e2.relation ∧ e1.alias_ = e2.alias_ ∧ e1.joinType = e2.joinType ∧
  e1.flatten = e2.flatten ∧ e1.left = e2.left ∧ e1.right = e2.right

theorem agreesExceptTargets_refl (e : Embedded) : agreesExceptTargets e e :=
  ⟨rfl, rfl, rfl, rfl, rfl, rfl⟩

theorem agreesExceptTargets_trans {e1 e2 e3 : Embedded}
    (h1 : agreesExceptTargets e1 e2) (h2 : agreesExceptTargets e2 e3) :
    agreesExceptTargets e1 e3 := by
  obtain ⟨a1, b1, c1, d1, f1, g1⟩ := h1
  obtain ⟨a2, b2, c2, d2, f2, g2⟩ := h2
  exact ⟨a1.trans a2, b1.trans b2, c1.trans c2, d1.trans d2, f1.trans f2, g1.trans g2⟩

theorem updateAt_length (l : List α) (i : Nat) (f : α → α) :
    (updateAt l i f).length = l.length := by
  induction l generalizing i with
  | nil => rfl
  | cons x xs ih =>
    cases i with
    | zero => rfl
    | succ n => simp [updateAt, ih]

theorem updateAt_agrees [Inhabited Embedded] (l : List Embedded) (i : Nat)
    (f : Embedded → Embedded) (hf : ∀ e, agreesExceptTargets (f e) e) (j : Nat) :
    agreesExceptTargets ((updateAt l i f).getD j default) (l.getD j default) := by
  induction l generalizing i j with
  | nil => exact agreesExceptTargets_refl _
  | cons x xs ih =>
    cases i with
    | zero =>
      cases j with
      | zero => exact hf x
      | succ m => exact agreesExceptTargets_refl _
    | succ n =>
      cases j with
      | zero => exact agreesExceptTargets_refl _
      | succ m => exact ih n m

/-- The second pass only pushes into `targets` lists: the length and all
non-`targets` fields of the joined list survive. -/
theorem routeTargets_agrees :
    ∀ (ts : List Target) (joined : List Embedded) (out : List Target × List Embedded),
      routeTargets ts joined = .ok out →
      out.2.length = joined.length ∧
      ∀ j, agreesExceptTargets (out.2.getD j default) (joined.getD j default) := by
  intro ts
  induction ts with
  | nil =>
    intro joined out h
    unfold routeTargets at h
    simp only [Except.ok.injEq] at h
    subst h
    exact ⟨rfl, fun j => agreesExceptTargets_refl _⟩
  | cons t rest ih =>
    intro joined out h
    unfold routeTargets at h
    split at h
    · -- column-less aggregate: kept, environment untouched
      obtain ⟨p, hp, hk⟩ := bindOk h
      simp only [Except.ok.injEq] at hk
      subst hk
      exact ih joined p hp
    · try simp only [Bind.bind, Except.bind] at h
      repeat' split at h
      all_goals try exact Except.noConfusion h
      -- kept at top level: environment untouched
      · rename_i v hv
        simp only [Except.ok.injEq] at h
        subst h
        exact ih joined v hv
      -- pushed into embedded target i: a targets-only update
      · rename_i v hv
        simp only [Except.ok.injEq] at h
        subst h
        have hrec := ih _ v hv
        refine ⟨hrec.1.trans (updateAt_length ..), fun j => ?_⟩
        apply agreesExceptTargets_trans (hrec.2 j)
        refine updateAt_agrees _ _ _ (fun e => ?_) j
        exact ⟨rfl, rfl, rfl, rfl, rfl, rfl⟩

/-- The third pass finalization only appends to `targets`. -/
theorem finalEmb_agrees (primaryRef : String) (joined : List Embedded) (fuel i : Nat) :
    agreesExceptTargets (finalEmb primaryRef joined fuel i) (joined.getD i default) := by
  cases fuel with
  | zero => exact agreesExceptTargets_refl _
  | succ m => exact ⟨rfl, rfl, rfl, rfl, rfl, rfl⟩

theorem getD_map_range {α : Type} (n j : Nat) (f : Nat → α) (d : α) :
    ((List.range n).map f).getD j d = if j < n then f j else d := by
  by_cases h : j < n
  · rw [if_pos h]
    rw [List.getD_eq_getElem?_getD, List.getElem?_map, List.getElem?_range h]
    rfl
  · rw [if_neg h]
    rw [List.getD_eq_getElem?_getD, List.getElem?_map]
    rw [List.getElem?_eq_none (by simpa using Nat.le_of_not_lt h)]
    rfl

theorem getD_eq_default_of_le {α : Type} [Inhabited α] (l : List α) (j : Nat)
    (h : l.length ≤ j) : l.getD j default = default := by
  rw [List.getD_eq_getElem?_getD, List.getElem?_eq_none h]
  rfl

/-- C9 (amended): `processTargetList` preserves the primary record, the
number and order of joined targets, and every field of every joined target
except its `targets` list (which the second and third passes append to —
the environment is *not* left unchanged, see the counterexample). -/
theorem C9_environment_amended :
    ∀ (tl : List ResTarget) (relations : Relations) (out : List Target × Relations),
      processTargetList tl relations = .ok out →
      out.2.primary = relations.primary ∧
      out.2.joined.length = relations.joined.length ∧
      ∀ j, agreesExceptTargets (out.2.joined.getD j default)
        (relations.joined.getD j default) := by
  intro tl relations out h
  unfold processTargetList at h
  obtain ⟨flat, _hflat, h⟩ := bindOk h
  obtain ⟨p2, hp2, h⟩ := bindOk h
  simp only [] at h
  obtain ⟨hlen2, hagree2⟩ := routeTargets_agrees flat relations.joined p2 hp2
  cases ho : firstOrphan relations.primary.reference p2.2 with
  | some orphan =>
    rw [ho] at h
    exact absurd h (by simp)
  | none =>
    rw [ho] at h
    simp only [Except.ok.injEq] at h
    subst h
    refine ⟨rfl, ?_, ?_⟩
    · simp [hlen2]
    · intro j
      by_cases hj : j < p2.2.length
      · have : ((List.range p2.2.length).map
            (fun i => finalEmb relations.primary.reference p2.2 p2.2.length i)).getD j default =
            finalEmb relations.primary.reference p2.2 p2.2.length j := by
          rw [getD_map_range, if_pos hj]
        simp only [this]
        exact agreesExceptTargets_trans
          (finalEmb_agrees relations.primary.reference p2.2 p2.2.length j) (hagree2 j)
      · have h1 : ((List.range p2.2.length).map
            (fun i => finalEmb relations.primary.reference p2.2 p2.2.length i)).getD j default =
            default := by
          rw [getD_map_range, if_neg hj]
        have h2 : relations.joined.getD j default = default := by
          apply getD_eq_default_of_le
          omega
        rw [h1, h2]
        exact agreesExceptTargets_refl _

/-- C9 counterexample: on `select authors.name from books join authors …`
the projection pass pushes the routed column into the environment's
embedded target, so the environment after `processTargetList` differs from
the environment before (its `targets` list grew) — it is not read-only. -/
theorem C9_counterexample_environment_mutated :
    (processTargetList
        [⟨none, some (.columnRef (some [.pgString (some "authors"), .pgString (some "name")]))⟩]
        joinedBooksRelations).map (fun p => p.2.joined.map Embedded.targets) =
      .ok [[Target.column "name" none none]] ∧
    joinedBooksRelations.joined.map Embedded.targets = [[]] ∧
    ([[Target.column "name" none none]] : List (List Target)) ≠ [[]] :=
  ⟨rfl, rfl, by simp⟩

/-- C9 witness: the amended preservation applied to that same query. -/
theorem C9_environment_amended_witness :
    (([Target.embedded "authors" none "inner" [Target.column "name" none none] true
        ⟨"books", "author_id"⟩ ⟨"authors", "id"⟩],
      (⟨⟨"books", none⟩,
        [⟨"authors", none, "inner", [Target.column "name" none none], true,
          ⟨"books", "author_id"⟩, ⟨"authors", "id"⟩⟩]⟩ : Relations)) :
        List Target × Relations).2.primary = joinedBooksRelations.primary ∧
    agreesExceptTargets
      ((([Target.embedded "authors" none "inner" [Target.column "name" none none] true
          ⟨"books", "author_id"⟩ ⟨"authors", "id"⟩],
        (⟨⟨"books", none⟩,
          [⟨"authors", none, "inner", [Target.column "name" none none], true,
            ⟨"books", "author_id"⟩, ⟨"authors", "id"⟩⟩]⟩ : Relations)) :
          List Target × Relations).2.joined.getD 0 default)
      (joinedBooksRelations.joined.getD 0 default) :=
  ⟨(C9_environment_amended
      [⟨none, some (.columnRef (some [.pgString (some "authors"), .pgString (some "name")]))⟩]
      joinedBooksRelations _ rfl).1,
   (C9_environment_amended
      [⟨none, some (.columnRef (some [.pgString (some "authors"), .pgString (some "name")]))⟩]
      joinedBooksRelations _ rfl).2.2 0⟩

end SqlToRest
namespace SqlToRest

/-! ## C2 — join canonicalization in processFromClause -/

/-- C2: (i) every join expression accepted by `processFromClause` appends
exactly one embedded target whose `left`/`right` pair is the pair returned
by the join-qualifier lowering, whose alias is the joined RangeVar's alias
and whose relation is its name; (ii) whenever the join-qualifier lowering
succeeds, `right.relation` is the newly joined relation's reference (its
alias if given, else its name), `left` and `right` name distinct relations,
and the pair consists exactly of the two column operands of the qualifier —
in written order when the right operand resolved to the joined relation,
swapped otherwise; (iii) when both operands resolve to existing relations
but neither references the newly joined relation, the qualifier lowering
fails with "Join qualifier must reference a column from the joined table",
and (iv) `processFromClause` propagates that error. -/
theorem C2_join_canonicalization :
    (∀ (jointype : Option String) (la : Node) (rrelname ralias : Option String)
        (qkind : Option String) (qname : Option (List Node))
        (qlexpr qrexpr : Option Node) (rel' : Relations),
      processFromClause (.joinExpr jointype (some la)
          (some (.rangeVar rrelname ralias))
          (some (.aExpr qkind qname qlexpr qrexpr))) = .ok rel' →
      ∃ (rels : Relations) (lr : JoinedColumn × JoinedColumn),
        processFromClause la = .ok rels ∧
        processJoinQualifier qname qlexpr qrexpr rels.primary.reference
          (some rels.primary.reference ::
            (rels.joined.map (fun t => some (embReference t)) ++
              [ralias.orElse (fun _ => rrelname)]))
          (ralias.orElse (fun _ => rrelname)) = .ok lr ∧
        rel'.primary = rels.primary ∧
        ∃ e : Embedded,
          rel'.joined = rels.joined ++ [e] ∧
          e.left = lr.1 ∧ e.right = lr.2 ∧ e.alias_ = ralias ∧
          some e.relation = rrelname) ∧
    (∀ (qname : Option (List Node)) (qlexpr qrexpr : Option Node)
        (primaryRef : String) (existingRelations : List (Option String))
        (joinedRelation : Option String) (l r : JoinedColumn),
      processJoinQualifier qname qlexpr qrexpr primaryRef existingRelations
          joinedRelation = .ok (l, r) →
      some r.relation = joinedRelation ∧ l.relation ≠ r.relation ∧
      ∃ (lfs rfs : List Node) (lq rq : String),
        qlexpr = some (.columnRef (some lfs)) ∧
        qrexpr = some (.columnRef (some rfs)) ∧
        resolveQualifierRelation (sliceSecondLast (fieldSvals lfs)) primaryRef
          existingRelations joinedRelation "Left side" = .ok lq ∧
        resolveQualifierRelation (sliceSecondLast (fieldSvals rfs)) primaryRef
          existingRelations joinedRelation "Right side" = .ok rq ∧
        ((l = ⟨lq, (sliceLast (fieldSvals lfs)).getD ""⟩ ∧
          r = ⟨rq, (sliceLast (fieldSvals rfs)).getD ""⟩) ∨
         (l = ⟨rq, (sliceLast (fieldSvals rfs)).getD ""⟩ ∧
          r = ⟨lq, (sliceLast (fieldSvals lfs)).getD ""⟩))) ∧
    (∀ (qname : Option (List Node)) (lfs rfs : List Node)
        (primaryRef : String) (existingRelations : List (Option String))
        (joinedRelation : Option String) (lq rq : String),
      lfs.all (fun f => match f with | .pgString _ => true | _ => false) = true →
      rfs.all (fun f => match f with | .pgString _ => true | _ => false) = true →
      optFalsy (sliceLast (fieldSvals lfs)) = false →
      optFalsy (sliceLast (fieldSvals rfs)) = false →
      resolveQualifierRelation (sliceSecondLast (fieldSvals lfs)) primaryRef
        existingRelations joinedRelation "Left side" = .ok lq →
      resolveQualifierRelation (sliceSecondLast (fieldSvals rfs)) primaryRef
        existingRelations joinedRelation "Right side" = .ok rq →
      rq ≠ lq → some rq ≠ joinedRelation → some lq ≠ joinedRelation →
      processJoinQualifier qname (some (.columnRef (some lfs)))
        (some (.columnRef (some rfs))) primaryRef existingRelations
        joinedRelation =
        .error "Join qualifier must reference a column from the joined table") ∧
    (∀ (la : Node) (rels : Relations) (rrelname ralias : Option String)
        (qkind : Option String) (qname : Option (List Node))
        (qlexpr qrexpr : Option Node) (msg : Err),
      processFromClause la = .ok rels →
      processJoinQualifier qname qlexpr qrexpr rels.primary.reference
          (some rels.primary.reference ::
            (rels.joined.map (fun t => some (embReference t)) ++
              [ralias.orElse (fun _ => rrelname)]))
          (ralias.orElse (fun _ => rrelname)) = .error msg →
      processFromClause (.joinExpr (some "JOIN_INNER") (some la)
          (some (.rangeVar rrelname ralias))
          (some (.aExpr qkind qname qlexpr qrexpr))) = .error msg) := by
  refine ⟨?_, ?_, ?_, ?_⟩
  · intro jointype la rrelname ralias qkind qname qlexpr qrexpr rel' h
    unfold processFromClause at h
    try simp only [Bind.bind, Except.bind] at h
    repeat' split at h
    all_goals try exact Except.noConfusion h
    simp only [Except.ok.injEq] at h
    subst h
    rename_i v1 hpfc x v sv rr hjq hrr
    exact ⟨v1, v, hpfc, hjq, rfl, ⟨_, rfl, rfl, rfl, rfl, rfl⟩⟩
  · intro qname qlexpr qrexpr primaryRef existingRelations joinedRelation l r h
    unfold processJoinQualifier at h
    try simp only [Bind.bind, Except.bind] at h
    repeat' split at h
    all_goals try exact Except.noConfusion h
    · rename_i arg fs2 lfsv hall2 hf2 x2 lqv heqL qrx fs1 rfsv hall1 hf1 x1 rqv heqR
        hsame hnei fs0 fields0 x0 sv0 heqHead hop hswap
      simp only [Except.ok.injEq, Prod.mk.injEq] at h
      obtain ⟨hl, hr⟩ := h
      subst hl
      subst hr
      exact ⟨eq_of_beq hswap, fun hc => absurd hc.symm hsame, lfsv, rfsv, lqv, rqv, rfl, rfl,
        heqL, heqR, Or.inl ⟨rfl, rfl⟩⟩
    · rename_i arg fs2 lfsv hall2 hf2 x2 lqv heqL qrx fs1 rfsv hall1 hf1 x1 rqv heqR
        hsame hnei fs0 fields0 x0 sv0 heqHead hop hswap
      simp only [Except.ok.injEq, Prod.mk.injEq] at h
      obtain ⟨hl, hr⟩ := h
      subst hl
      subst hr
      rcases not_and_or.mp hnei with h1 | h1
      · exact absurd (beq_iff_eq.mpr (not_not.mp h1)) hswap
      · exact ⟨not_not.mp h1, fun hc => absurd hc hsame, lfsv, rfsv, lqv, rqv, rfl, rfl,
          heqL, heqR, Or.inr ⟨rfl, rfl⟩⟩
  · intro qname lfs rfs primaryRef existingRelations joinedRelation lq rq
      hallL hallR hfL hfR hL hR hne hrj hlj
    unfold processJoinQualifier
    simp only [hallL, hallR, hfL, hfR, not_true_eq_false, Bool.false_eq_true,
      not_false_eq_true, if_false, if_true, ite_true, ite_false, Bind.bind, Except.bind,
      hL, hR]
    rw [if_neg hne, if_pos ⟨hrj, hlj⟩]
  · intro la rels rrelname ralias qkind qname qlexpr qrexpr msg hla hq
    have hmt : mapJoinType "JOIN_INNER" = Except.ok "inner" := rfl
    unfold processFromClause
    simp only [hmt, hla, hq, Bind.bind, Except.bind, String.reduceEq, reduceIte]

/-- C2 witness: `books join authors on authors.id = books.author_id` (the
operands written joined-relation first, so the lowering must swap), and a
qualifier `books.author_id = authors.id` under a join of `publishers`
(neither side references the joined relation, so lowering errors). -/
theorem C2_join_canonicalization_witness :
    (∃ (rels : Relations) (lr : JoinedColumn × JoinedColumn),
        processFromClause (.rangeVar (some "books") none) = .ok rels ∧
        processJoinQualifier (some [.pgString (some "=")])
          (some (.columnRef (some [.pgString (some "authors"), .pgString (some "id")])))
          (some (.columnRef (some [.pgString (some "books"), .pgString (some "author_id")])))
          rels.primary.reference
          (some rels.primary.reference ::
            (rels.joined.map (fun t => some (embReference t)) ++
              [(none : Option String).orElse (fun _ => some "authors")]))
          ((none : Option String).orElse (fun _ => some "authors")) = .ok lr ∧
        joinedBooksRelations.primary = rels.primary ∧
        ∃ e : Embedded,
          joinedBooksRelations.joined = rels.joined ++ [e] ∧
          e.left = lr.1 ∧ e.right = lr.2 ∧ e.alias_ = none ∧
          some e.relation = some "authors") ∧
    processJoinQualifier (some [.pgString (some "=")])
      (some (.columnRef (some [.pgString (some "books"), .pgString (some "author_id")])))
      (some (.columnRef (some [.pgString (some "authors"), .pgString (some "id")])))
      "books" [some "books", some "authors", some "publishers"] (some "publishers") =
      .error "Join qualifier must reference a column from the joined table" :=
  ⟨C2_join_canonicalization.1 (some "JOIN_INNER") (.rangeVar (some "books") none)
      (some "authors") none (some "AEXPR_OP") (some [.pgString (some "=")])
      (some (.columnRef (some [.pgString (some "authors"), .pgString (some "id")])))
      (some (.columnRef (some [.pgString (some "books"), .pgString (some "author_id")])))
      joinedBooksRelations rfl,
   C2_join_canonicalization.2.2.1 (some [.pgString (some "=")])
      [.pgString (some "books"), .pgString (some "author_id")]
      [.pgString (some "authors"), .pgString (some "id")]
      "books" [some "books", some "authors", some "publishers"] (some "publishers")
      "books" "authors" rfl rfl rfl rfl rfl rfl (by decide) (by decide) (by decide)⟩

end SqlToRest
